import Mathlib

/-!
Shallow embedding of the restreamer control core, translated from
`src/components/restreamer/src/state.rs` and
`src/components/restreamer/src/server.rs`.

Modelling conventions:
* `url::Url` is modelled as its serialized string form (`Url := String`);
  the mutators only ever compare URLs for equality and concatenate them.
* `InputId`/`OutputId` wrap a random 128-bit UUID in the source
  (`Uuid::new_v4`); they are modelled as natural numbers, and the
  generator is modelled by passing the freshly generated id as an explicit
  argument, with freshness (the id not being present in the state) as a
  hypothesis where a result depends on it.
* `srs::ClientId` is modelled as a natural number.
* Machine integers (`u64`) are natural numbers reduced modulo `2 ^ 64`
  where overflow matters.
-/

/-- URLs are modelled by their serialized string form. -/
abbrev Url := String

/-- Model of `srs::ClientId` (a broker-side client identifier). -/
abbrev ClientId := Nat

/-- Model of `InputId` (a 128-bit UUID in the source). -/
abbrev InputId := Nat

/-- Model of `OutputId` (a 128-bit UUID in the source). -/
abbrev OutputId := Nat

/-- Status of an input or output, from `state.rs` (`enum Status`).
The `SmartDefault` derive marks `Offline` as the default value. -/
inductive Status where
  | Offline
  | Initializing
  | Online
deriving DecidableEq, Repr

instance : Inhabited Status := ⟨Status.Offline⟩

/-- Model of `struct PullInput { src, #[serde(skip)] status }`. -/
structure PullInput where
  src : Url
  status : Status
deriving DecidableEq, Repr

/-- Model of `struct PushInput { name, #[serde(skip)] status }`. -/
structure PushInput where
  name : String
  status : Status
deriving DecidableEq, Repr

/-- Model of `enum Input { Push(PushInput), Pull(PullInput) }`. -/
inductive Input where
  | Push : PushInput → Input
  | Pull : PullInput → Input
deriving DecidableEq, Repr

/-- Model of `struct Output { id, dst, label, enabled, #[serde(skip)] status }`. -/
structure Output where
  id : OutputId
  dst : Url
  label : Option String
  enabled : Bool
  status : Status
deriving DecidableEq, Repr

/-- Model of `struct Restream { id, input, outputs, enabled, #[serde(skip)] srs_publisher_id }`. -/
structure Restream where
  id : InputId
  input : Input
  outputs : List Output
  enabled : Bool
  srs_publisher_id : Option ClientId
deriving DecidableEq, Repr

/-- Model of `struct State { password_hash, restreams }`: the two observable
cells are modelled by their current values. -/
structure State where
  password_hash : Option String
  restreams : List Restream
deriving DecidableEq, Repr

/-- Model of `State::default()`: both cells start at their default values
(`None` and the empty vector). -/
def State.default : State := { password_hash := none, restreams := [] }

/-- From `PullInput::is`: identity comparison of two pull inputs by `src`. -/
def PullInput.is (a b : PullInput) : Bool := a.src == b.src

/-- From `PushInput::is`: identity comparison of two push inputs by `name`. -/
def PushInput.is (a b : PushInput) : Bool := a.name == b.name

/-- From `Input::is`: identity comparison dispatching on the input kind. -/
def Input.is : Input → Input → Bool
  | Input.Pull a, Input.Pull b => a.is b
  | Input.Push a, Input.Push b => a.is b
  | _, _ => false

/-- From `Input::is_pull`. -/
def Input.is_pull : Input → Bool
  | Input.Pull _ => true
  | Input.Push _ => false

/-- From `Input::status`. -/
def Input.status : Input → Status
  | Input.Pull i => i.status
  | Input.Push i => i.status

/-- From `Input::set_status` (in-place mutation modelled functionally). -/
def Input.set_status : Input → Status → Input
  | Input.Pull i, new => Input.Pull { i with status := new }
  | Input.Push i, new => Input.Push { i with status := new }

/-- Modelled from the spec: the external `xxhash` crate (not part of this
repository) provides `xxh3_64`, specified only as a fast deterministic
non-cryptographic 64-bit fingerprint of a byte string.  It is modelled here
as the FNV-1a 64-bit hash of the character codes, reduced modulo `2 ^ 64`;
every claim treats the fingerprint as an opaque deterministic value. -/
def xxh3_64 (s : String) : Nat :=
  s.data.foldl (fun h c => ((h ^^^ c.toNat) * 1099511628211) % (2 ^ 64))
    14695981039346656037

/-- From `Input::hash`: the 64-bit fingerprint of the identity bytes
(`src` for pull, `name` for push). -/
def Input.hash : Input → Nat
  | Input.Pull i => xxh3_64 i.src
  | Input.Push i => xxh3_64 i.name

/-- From `Input::srs_url`: the broker URL handed to the worker.  The source
builds it with `format!`, rendering the `u64` fingerprint with the `{}`
(decimal `Display`) formatter. -/
def Input.srs_url (i : Input) : Url :=
  match i with
  | Input.Pull _ => "rtmp://127.0.0.1:1935/pull_" ++ toString i.hash ++ "/in"
  | Input.Push p => "rtmp://127.0.0.1:1935/" ++ p.name ++ "/in"

/-- Model of Rust `u64::from_str` (`str::parse::<u64>()`): an optional
leading plus sign, then one or more decimal digits, value below `2 ^ 64`;
anything else is an error. -/
def parse_u64 (s : String) : Option Nat :=
  let t := if s.startsWith "+" then s.drop 1 else s
  if t.isEmpty then none
  else if t.data.all Char.isDigit then
    let v := t.data.foldl (fun a c => a * 10 + (c.toNat - 48)) 0
    if v < 2 ^ 64 then some v else none
  else none

/-- From `Input::uses_srs_app`: whether the broker `app` designates this
input (`pull_<fingerprint>` for pull, the name itself for push). -/
def Input.uses_srs_app (i : Input) (app : String) : Bool :=
  match i with
  | Input.Pull _ =>
      app.startsWith "pull_" && (parse_u64 (app.drop 5) == some i.hash)
  | Input.Push p => app == p.name

/-- Combinator modelling `iter_mut().find(p)` followed by a conditional
in-place mutation of the found element: `f` receives the first element
satisfying `p` and either fails (propagating the failure of a nested
lookup) or returns a result value together with the replacement element.
Returns `none` when no element matches or when `f` fails; the list is then
unchanged by the callers. -/
def updateFirst (p : α → Bool) (f : α → Option (β × α)) : List α → Option (β × List α)
  | [] => none
  | x :: xs =>
    if p x then
      match f x with
      | none => none
      | some (b, x₂) => some (b, x₂ :: xs)
    else
      match updateFirst p f xs with
      | none => none
      | some (b, xs₂) => some (b, x :: xs₂)

/-- From `State::add_input_to`: replace the input of the restream with id
`replace_id` in place (clearing the publisher id and resetting output
statuses unless the new input is identity-equal), or push a brand-new
restream when `replace_id` is absent.  `newId` models the id freshly
generated by `InputId::new()`. -/
def add_input_to (restreams : List Restream) (input : Input)
    (replace_id : Option InputId) (newId : InputId) :
    Option Bool × List Restream :=
  match replace_id with
  | some id =>
    match updateFirst (fun r => r.id == id)
        (fun r =>
          if r.input.is input then some ((), r)
          else some ((), { r with
            input := input,
            srs_publisher_id := none,
            outputs := r.outputs.map (fun o => { o with status := Status.Offline }) }))
        restreams with
    | none => (none, restreams)
    | some (_, rs) => (some true, rs)
  | none =>
    (some true, restreams ++ [{
      id := newId,
      input := input,
      outputs := [],
      enabled := true,
      srs_publisher_id := none }])

/-- From `State::add_pull_input`: reject with `Some(false)` when any other
restream already owns `src` as a pull input, else delegate to
`add_input_to` with a fresh pull input. -/
def State.add_pull_input (src : Url) (replace_id : Option InputId)
    (newId : InputId) (s : State) : Option Bool × State :=
  if s.restreams.any (fun r =>
      match r.input with
      | Input.Pull i => src == i.src && replace_id != some r.id
      | Input.Push _ => false) then
    (some false, s)
  else
    let pr := add_input_to s.restreams
      (Input.Pull { src := src, status := Status.Offline }) replace_id newId
    (pr.1, { s with restreams := pr.2 })

/-- From `State::add_push_input`: reject with `Some(false)` when any other
restream already owns `name` as a push input, else delegate to
`add_input_to` with a fresh push input. -/
def State.add_push_input (name : String) (replace_id : Option InputId)
    (newId : InputId) (s : State) : Option Bool × State :=
  if s.restreams.any (fun r =>
      match r.input with
      | Input.Push i => name == i.name && replace_id != some r.id
      | Input.Pull _ => false) then
    (some false, s)
  else
    let pr := add_input_to s.restreams
      (Input.Push { name := name, status := Status.Offline }) replace_id newId
    (pr.1, { s with restreams := pr.2 })

/-- From `State::remove_input`: retain every restream with a different id;
report whether the length changed. -/
def State.remove_input (id : InputId) (s : State) : Bool × State :=
  let rs := s.restreams.filter (fun r => r.id != id)
  (rs.length != s.restreams.length, { s with restreams := rs })

/-- From `State::enable_input`. -/
def State.enable_input (id : InputId) (s : State) : Option Bool × State :=
  match updateFirst (fun r => r.id == id)
      (fun r =>
        if r.enabled then some (false, r)
        else some (true, { r with enabled := true }))
      s.restreams with
  | none => (none, s)
  | some (b, rs) => (some b, { s with restreams := rs })

/-- From `State::disable_input`: disabling also clears `srs_publisher_id`. -/
def State.disable_input (id : InputId) (s : State) : Option Bool × State :=
  match updateFirst (fun r => r.id == id)
      (fun r =>
        if !r.enabled then some (false, r)
        else some (true, { r with enabled := false, srs_publisher_id := none }))
      s.restreams with
  | none => (none, s)
  | some (b, rs) => (some b, { s with restreams := rs })

/-- From `State::add_new_output`: `Some(false)` on a duplicate `dst` within
the same restream, else append a disabled offline output.  `newId` models
the id freshly generated by `OutputId::new()`. -/
def State.add_new_output (input_id : InputId) (output_dst : Url)
    (label : Option String) (newId : OutputId) (s : State) :
    Option Bool × State :=
  match updateFirst (fun r => r.id == input_id)
      (fun r =>
        if r.outputs.any (fun o => o.dst == output_dst) then some (false, r)
        else some (true, { r with outputs := r.outputs ++ [{
          id := newId,
          dst := output_dst,
          label := label,
          enabled := false,
          status := Status.Offline }] }))
      s.restreams with
  | none => (none, s)
  | some (b, rs) => (some b, { s with restreams := rs })

/-- From `State::remove_output`. -/
def State.remove_output (input_id : InputId) (output_id : OutputId)
    (s : State) : Option Bool × State :=
  match updateFirst (fun r => r.id == input_id)
      (fun r =>
        let os := r.outputs.filter (fun o => o.id != output_id)
        some (os.length != r.outputs.length, { r with outputs := os }))
      s.restreams with
  | none => (none, s)
  | some (b, rs) => (some b, { s with restreams := rs })

/-- From `State::enable_output`: the nested lookup of the output may fail,
in which case the whole call returns `None`. -/
def State.enable_output (input_id : InputId) (output_id : OutputId)
    (s : State) : Option Bool × State :=
  match updateFirst (fun r => r.id == input_id)
      (fun r =>
        (updateFirst (fun o => o.id == output_id)
          (fun o =>
            if o.enabled then some (false, o)
            else some (true, { o with enabled := true }))
          r.outputs).map (fun bo => (bo.1, { r with outputs := bo.2 })))
      s.restreams with
  | none => (none, s)
  | some (b, rs) => (some b, { s with restreams := rs })

/-- From `State::disable_output`. -/
def State.disable_output (input_id : InputId) (output_id : OutputId)
    (s : State) : Option Bool × State :=
  match updateFirst (fun r => r.id == input_id)
      (fun r =>
        (updateFirst (fun o => o.id == output_id)
          (fun o =>
            if !o.enabled then some (false, o)
            else some (true, { o with enabled := false }))
          r.outputs).map (fun bo => (bo.1, { r with outputs := bo.2 })))
      s.restreams with
  | none => (none, s)
  | some (b, rs) => (some b, { s with restreams := rs })

/-- From `State::enable_all_outputs`: enable every output; the result is
`true` iff some output was disabled (the fold over the `filter`). -/
def State.enable_all_outputs (input_id : InputId) (s : State) :
    Option Bool × State :=
  match updateFirst (fun r => r.id == input_id)
      (fun r =>
        some (r.outputs.any (fun o => !o.enabled),
          { r with outputs := r.outputs.map (fun o => { o with enabled := true }) }))
      s.restreams with
  | none => (none, s)
  | some (b, rs) => (some b, { s with restreams := rs })

/-- From `State::disable_all_outputs`. -/
def State.disable_all_outputs (input_id : InputId) (s : State) :
    Option Bool × State :=
  match updateFirst (fun r => r.id == input_id)
      (fun r =>
        some (r.outputs.any (fun o => o.enabled),
          { r with outputs := r.outputs.map (fun o => { o with enabled := false }) }))
      s.restreams with
  | none => (none, s)
  | some (b, rs) => (some b, { s with restreams := rs })

/-- Model of `std::net::IpAddr`. -/
inductive IpAddr where
  | v4 (a b c d : Nat)
  | v6 (segs : List Nat)
deriving DecidableEq, Repr

/-- Model of `IpAddr::is_loopback`: an IPv4 address is loopback iff its
first octet is 127; an IPv6 address iff it is `::1`. -/
def IpAddr.is_loopback : IpAddr → Bool
  | IpAddr.v4 a _ _ _ => a == 127
  | IpAddr.v6 segs => segs == [0, 0, 0, 0, 0, 0, 0, 1]

/-- Model of `api::srs::callback::Action` (namespaced to avoid clashing
with a Mathlib name). -/
inductive Srs.Action where
  | OnConnect
  | OnPublish
  | OnUnpublish
deriving DecidableEq, Repr

/-- Model of `api::srs::callback::Request`. -/
structure Srs.Request where
  action : Srs.Action
  app : String
  stream : Option String
  client_id : ClientId
  ip : IpAddr
deriving DecidableEq, Repr

/-- Errors produced by the callback handlers.  `error::ErrorNotFound` maps
to HTTP 404 and `error::ErrorForbidden` to HTTP 403. -/
inductive CbError where
  | notFound
  | forbidden
deriving DecidableEq, Repr

/-- HTTP status code carried by a callback error. -/
def CbError.http_status : CbError → Nat
  | CbError.notFound => 404
  | CbError.forbidden => 403

/-- From `callback::on_connect`: read-only check that some enabled
restream uses the requested app; the restream list is returned alongside
the result to make the (absence of) mutation explicit. -/
def on_connect (req : Srs.Request) (restreams : List Restream) :
    Except CbError Unit × List Restream :=
  if restreams.any (fun r => r.enabled && r.input.uses_srs_app req.app) then
    (Except.ok (), restreams)
  else
    (Except.error CbError.notFound, restreams)

/-- Core of `callback::on_publish`: walk to the first enabled restream
using the app (`iter_mut().find`), then either reject pull inputs from a
non-loopback caller or record the publisher and flip the status.  The
source assigns `srs_publisher_id` only when it differs from the incoming
client id; the conditional write is mirrored here. -/
def publish_update (req : Srs.Request) : List Restream →
    Option (Except CbError (List Restream))
  | [] => none
  | r :: rs =>
    if r.enabled && r.input.uses_srs_app req.app then
      if r.input.is_pull && !req.ip.is_loopback then
        some (Except.error CbError.forbidden)
      else
        let r₂ := if r.srs_publisher_id != some req.client_id
          then { r with srs_publisher_id := some req.client_id } else r
        some (Except.ok ({ r₂ with input := r₂.input.set_status Status.Online } :: rs))
    else
      (publish_update req rs).map (fun e => e.map (fun rs₂ => r :: rs₂))

/-- From `callback::on_publish`: gate on `stream == "in"`, then apply
`publish_update`; every error path leaves the restream list untouched. -/
def on_publish (req : Srs.Request) (restreams : List Restream) :
    Except CbError Unit × List Restream :=
  if req.stream != some "in" then
    (Except.error CbError.notFound, restreams)
  else
    match publish_update req restreams with
    | none => (Except.error CbError.notFound, restreams)
    | some (Except.error e) => (Except.error e, restreams)
    | some (Except.ok rs) => (Except.ok (), rs)

/-- From `callback::on_unpublish`: find the first restream (enabled or
not) using the app, clear its publisher id and set its input offline. -/
def on_unpublish (req : Srs.Request) (restreams : List Restream) :
    Except CbError Unit × List Restream :=
  match updateFirst (fun r => r.input.uses_srs_app req.app)
      (fun r => some ((), { r with
        srs_publisher_id := none,
        input := r.input.set_status Status.Offline }))
      restreams with
  | none => (Except.error CbError.notFound, restreams)
  | some (_, rs) => (Except.ok (), rs)

/-- From `callback::callback`: dispatch on the action; on success the
response body is the literal string `0`. -/
def callback (req : Srs.Request) (s : State) : Except CbError String × State :=
  let pr :=
    match req.action with
    | Srs.Action.OnConnect => on_connect req s.restreams
    | Srs.Action.OnPublish => on_publish req s.restreams
    | Srs.Action.OnUnpublish => on_unpublish req s.restreams
  (pr.1.map (fun _ => "0"), { s with restreams := pr.2 })

/-!
Persistence model.  The serde derives on `State`, `Restream`, `Input`,
`PullInput`, `PushInput` and `Output` emit a JSON document in which every
field annotated `#[serde(skip)]` (`status` of inputs and outputs,
`srs_publisher_id` of restreams) is absent, and `label` is present exactly
when it is `Some`.  The JSON layer is injective on the remaining fields,
so the persisted document is modelled by a record containing exactly the
emitted fields; deserialization fills the skipped fields with their
`Default` values (`Status::Offline`, `None`).
-/

/-- Persisted form of an `Input`: the `status` fields are `#[serde(skip)]`. -/
inductive PersistedInput where
  | Push (name : String)
  | Pull (src : Url)
deriving DecidableEq, Repr

/-- Persisted form of an `Output`: `status` is `#[serde(skip)]`. -/
structure PersistedOutput where
  id : OutputId
  dst : Url
  label : Option String
  enabled : Bool
deriving DecidableEq, Repr

/-- Persisted form of a `Restream`: `srs_publisher_id` is `#[serde(skip)]`. -/
structure PersistedRestream where
  id : InputId
  input : PersistedInput
  outputs : List PersistedOutput
  enabled : Bool
deriving DecidableEq, Repr

/-- Persisted form of the root `State`. -/
structure PersistedState where
  password_hash : Option String
  restreams : List PersistedRestream
deriving DecidableEq, Repr

/-- Serialization of an `Input` (drops the skipped `status`). -/
def Input.serialize : Input → PersistedInput
  | Input.Push i => PersistedInput.Push i.name
  | Input.Pull i => PersistedInput.Pull i.src

/-- Deserialization of an `Input` (the skipped `status` defaults to
`Offline`). -/
def PersistedInput.deserialize : PersistedInput → Input
  | PersistedInput.Push n => Input.Push { name := n, status := Status.Offline }
  | PersistedInput.Pull s => Input.Pull { src := s, status := Status.Offline }

/-- Serialization of an `Output` (drops the skipped `status`). -/
def Output.serialize (o : Output) : PersistedOutput :=
  { id := o.id, dst := o.dst, label := o.label, enabled := o.enabled }

/-- Deserialization of an `Output` (the skipped `status` defaults to
`Offline`). -/
def PersistedOutput.deserialize (o : PersistedOutput) : Output :=
  { id := o.id, dst := o.dst, label := o.label, enabled := o.enabled,
    status := Status.Offline }

/-- Serialization of a `Restream` (drops the skipped `srs_publisher_id`). -/
def Restream.serialize (r : Restream) : PersistedRestream :=
  { id := r.id, input := r.input.serialize,
    outputs := r.outputs.map Output.serialize, enabled := r.enabled }

/-- Deserialization of a `Restream` (the skipped `srs_publisher_id`
defaults to `None`). -/
def PersistedRestream.deserialize (r : PersistedRestream) : Restream :=
  { id := r.id, input := r.input.deserialize,
    outputs := r.outputs.map PersistedOutput.deserialize,
    enabled := r.enabled, srs_publisher_id := none }

/-- Serialization of the root `State`. -/
def State.serialize (s : State) : PersistedState :=
  { password_hash := s.password_hash,
    restreams := s.restreams.map Restream.serialize }

/-- Deserialization of the root `State`. -/
def PersistedState.deserialize (s : PersistedState) : State :=
  { password_hash := s.password_hash,
    restreams := s.restreams.map PersistedRestream.deserialize }

/-- Resetting the runtime-only data of a restream, as the claim describes
the reload: every status becomes `Offline` and the publisher id is
cleared. -/
def Restream.reset_runtime (r : Restream) : Restream :=
  { r with
    input := r.input.set_status Status.Offline,
    srs_publisher_id := none,
    outputs := r.outputs.map (fun o => { o with status := Status.Offline }) }

/-- Resetting the runtime-only data of the whole root state. -/
def State.reset_runtime (s : State) : State :=
  { s with restreams := s.restreams.map Restream.reset_runtime }

/-- Lowercase hexadecimal rendering of a natural number (what the claim
asserts about the broker URL of a pull input). -/
def hex64 (n : Nat) : String := String.mk (Nat.toDigits 16 n)

/-!
General lemmas about `updateFirst`.
-/

theorem updateFirst_nomatch {p : α → Bool} {f : α → Option (β × α)} :
    ∀ {l : List α}, (∀ x ∈ l, p x = false) → updateFirst p f l = none
  | [], _ => rfl
  | x :: xs, h => by
    have hx : p x = false := h x (List.mem_cons_self x xs)
    have hxs : updateFirst p f xs = none :=
      updateFirst_nomatch (fun y hy => h y (List.mem_cons_of_mem x hy))
    simp [updateFirst, hx, hxs]

theorem updateFirst_decomp {p : α → Bool} {f : α → Option (β × α)}
    (pre : List α) (x : α) (post : List α)
    (hpre : ∀ y ∈ pre, p y = false) (hx : p x = true) :
    updateFirst p f (pre ++ x :: post) =
      (f x).map (fun bx => (bx.1, pre ++ bx.2 :: post)) := by
  induction pre with
  | nil =>
    simp only [List.nil_append, updateFirst, hx, if_true]
    cases f x with
    | none => rfl
    | some bx => rfl
  | cons y ys ih =>
    have hy : p y = false := hpre y (List.mem_cons_self y ys)
    have ihh := ih (fun z hz => hpre z (List.mem_cons_of_mem y hz))
    simp only [List.cons_append, updateFirst, hy, Bool.false_eq_true, if_false,
      List.append_eq, ihh]
    cases f x with
    | none => rfl
    | some bx => rcases bx with ⟨b, x₂⟩; rfl

theorem updateFirst_some {p : α → Bool} {f : α → Option (β × α)} :
    ∀ {l : List α} {b : β} {l₂ : List α},
      updateFirst p f l = some (b, l₂) →
      ∃ pre x post x₂, l = pre ++ x :: post ∧ l₂ = pre ++ x₂ :: post ∧
        (∀ y ∈ pre, p y = false) ∧ p x = true ∧ f x = some (b, x₂)
  | [], _, _, h => by simp [updateFirst] at h
  | x :: xs, b, l₂, h => by
    by_cases hx : p x = true
    · rw [updateFirst, if_pos hx] at h
      cases hfx : f x with
      | none => rw [hfx] at h; exact absurd h (by simp)
      | some bx =>
        rw [hfx] at h
        injection h with h₁
        injection h₁ with hb hl
        exact ⟨[], x, xs, bx.2, by simp, by simp [← hl], by simp, hx, by
          rw [hfx, ← hb]⟩
    · have hx₂ : p x = false := by simpa using hx
      rw [updateFirst, hx₂] at h
      simp only [Bool.false_eq_true, if_false] at h
      cases hrec : updateFirst p f xs with
      | none => rw [hrec] at h; exact absurd h (by simp)
      | some bxs =>
        rcases bxs with ⟨bb, xs₂⟩
        rw [hrec] at h
        injection h with h₁
        injection h₁ with hb hl
        subst hb
        obtain ⟨pre, z, post, z₂, hxs, hxs₂, hpre, hz, hfz⟩ :=
          updateFirst_some (l := xs) hrec
        exact ⟨x :: pre, z, post, z₂, by simp [hxs], by simp [← hl, hxs₂],
          by
            intro y hy
            rcases List.mem_cons.mp hy with h | h
            · exact h ▸ hx₂
            · exact hpre y h,
          hz, hfz⟩

theorem updateFirst_forall {Q : α → Prop} {p : α → Bool} {f : α → Option (β × α)}
    {l : List α} {b : β} {l₂ : List α}
    (h : updateFirst p f l = some (b, l₂))
    (hf : ∀ x ∈ l, Q x → ∀ b₂ x₂, f x = some (b₂, x₂) → Q x₂)
    (hl : ∀ x ∈ l, Q x) : ∀ x ∈ l₂, Q x := by
  obtain ⟨pre, x, post, x₂, rfl, rfl, _, _, hfx⟩ := updateFirst_some h
  intro y hy
  rcases List.mem_append.mp hy with h₁ | h₁
  · exact hl y (List.mem_append.mpr (Or.inl h₁))
  · rcases List.mem_cons.mp h₁ with h₂ | h₂
    · have hq := hf x (List.mem_append.mpr (Or.inr (List.mem_cons_self x post)))
        (hl x (List.mem_append.mpr (Or.inr (List.mem_cons_self x post)))) b x₂ hfx
      exact h₂ ▸ hq
    · exact hl y (List.mem_append.mpr (Or.inr (List.mem_cons_of_mem x h₂)))

theorem updateFirst_map {g : α → γ} {p : α → Bool} {f : α → Option (β × α)}
    {l : List α} {b : β} {l₂ : List α}
    (h : updateFirst p f l = some (b, l₂))
    (hf : ∀ x ∈ l, ∀ b₂ x₂, f x = some (b₂, x₂) → g x₂ = g x) :
    l₂.map g = l.map g := by
  obtain ⟨pre, x, post, x₂, rfl, rfl, _, _, hfx⟩ := updateFirst_some h
  have : g x₂ = g x :=
    hf x (List.mem_append.mpr (Or.inr (List.mem_cons_self x post))) b x₂ hfx
  simp [this]

theorem updateFirst_total_none {p : α → Bool} {f : α → Option (β × α)}
    (hf : ∀ x, (f x).isSome = true) :
    ∀ {l : List α}, updateFirst p f l = none → ∀ x ∈ l, p x = false := by
  intro l
  induction l with
  | nil => intro _ x hx; exact absurd hx (List.not_mem_nil x)
  | cons y ys ih =>
    intro h x hx
    by_cases hy : p y = true
    · rw [updateFirst, if_pos hy] at h
      cases hfy : f y with
      | none => exact absurd (hf y) (by simp [hfy])
      | some by₂ => rw [hfy] at h; exact absurd h (by simp)
    · have hy₂ : p y = false := by simpa using hy
      rw [updateFirst, hy₂] at h
      simp only [Bool.false_eq_true, if_false] at h
      rcases List.mem_cons.mp hx with h₁ | h₁
      · exact h₁ ▸ hy₂
      · cases hrec : updateFirst p f ys with
        | none => exact ih hrec x h₁
        | some bys => rw [hrec] at h; exact absurd h (by simp)

/-!
Persist-then-reload round-trip (C2).
-/

theorem roundtrip_output (o : Output) :
    PersistedOutput.deserialize (Output.serialize o) =
      { o with status := Status.Offline } := rfl

theorem roundtrip_input (i : Input) :
    PersistedInput.deserialize (Input.serialize i) =
      i.set_status Status.Offline := by
  cases i <;> rfl

theorem roundtrip_restream (r : Restream) :
    PersistedRestream.deserialize (Restream.serialize r) = r.reset_runtime := by
  simp only [Restream.serialize, PersistedRestream.deserialize, Restream.reset_runtime,
    roundtrip_input, List.map_map]
  have houts : List.map (PersistedOutput.deserialize ∘ Output.serialize) r.outputs =
      List.map (fun o => ({ o with status := Status.Offline } : Output)) r.outputs :=
    List.map_congr_left (fun o _ => roundtrip_output o)
  rw [houts]

/-- C2: persist-then-reload round-trip: deserializing the serialized root
yields the original state with every input and output status reset to
`Offline` and every `srs_publisher_id` reset to `None`, preserving ids,
sources, names, destinations, labels, enabled flags and the order of
restreams and outputs. -/
theorem C2_persist_roundtrip (s : State) :
    PersistedState.deserialize (State.serialize s) = State.reset_runtime s := by
  simp only [State.serialize, PersistedState.deserialize, State.reset_runtime,
    List.map_map]
  have hres : List.map (PersistedRestream.deserialize ∘ Restream.serialize) s.restreams =
      List.map Restream.reset_runtime s.restreams :=
    List.map_congr_left (fun r _ => roundtrip_restream r)
  rw [hres]

/-!
Broker URL of an input (C3).  The source renders the pull fingerprint with
the decimal `Display` formatter, not hexadecimal, so the claim as stated
fails; the amended statement replaces the hexadecimal rendering by the
decimal one.
-/

/-- C3 counterexample: for the pull input with source `rtmp://a/x`, the
broker URL produced by the code is not the claimed string built from the
hexadecimal rendering of the fingerprint. -/
theorem C3_counterexample :
    Input.srs_url (Input.Pull { src := "rtmp://a/x", status := Status.Offline }) ≠
      "rtmp://127.0.0.1:1935/pull_" ++
        hex64 (xxh3_64 "rtmp://a/x") ++ "/in" := by decide

/-- C3 (amended): the broker URL of a pull input is exactly
`rtmp://127.0.0.1:1935/pull_<dec64>/in` where `<dec64>` is the decimal
rendering of the 64-bit fingerprint of the source bytes, and the broker
URL of a push input named `name` is `rtmp://127.0.0.1:1935/<name>/in`. -/
theorem C3_srs_url_decimal :
    (∀ src st, Input.srs_url (Input.Pull { src := src, status := st }) =
      "rtmp://127.0.0.1:1935/pull_" ++ toString (xxh3_64 src) ++ "/in") ∧
    (∀ name st, Input.srs_url (Input.Push { name := name, status := st }) =
      "rtmp://127.0.0.1:1935/" ++ name ++ "/in") :=
  ⟨fun _ _ => rfl, fun _ _ => rfl⟩

/-!
First-match behaviour of the enable and disable mutators.
-/

theorem enable_input_decomp (ph : Option String) (pre : List Restream) (r : Restream)
    (post : List Restream) (id : InputId) (hid : r.id = id)
    (hpre : ∀ y ∈ pre, y.id ≠ id) :
    State.enable_input id { password_hash := ph, restreams := pre ++ r :: post } =
      if r.enabled then
        (some false, { password_hash := ph, restreams := pre ++ r :: post })
      else
        (some true,
          { password_hash := ph,
            restreams := pre ++ { r with enabled := true } :: post }) := by
  have hd := updateFirst_decomp
    (f := fun r₂ =>
      if r₂.enabled then some (false, r₂)
      else some (true, { r₂ with enabled := true }))
    pre r post (fun y hy => beq_eq_false_iff_ne.mpr (hpre y hy))
    (by simp [hid])
  simp only [State.enable_input]
  rw [hd]
  cases he : r.enabled <;> simp [he]

theorem disable_input_decomp (ph : Option String) (pre : List Restream) (r : Restream)
    (post : List Restream) (id : InputId) (hid : r.id = id)
    (hpre : ∀ y ∈ pre, y.id ≠ id) :
    State.disable_input id { password_hash := ph, restreams := pre ++ r :: post } =
      if r.enabled then
        (some true,
          { password_hash := ph,
            restreams := pre ++ { r with enabled := false, srs_publisher_id := none } :: post })
      else
        (some false, { password_hash := ph, restreams := pre ++ r :: post }) := by
  have hd := updateFirst_decomp
    (f := fun r₂ =>
      if !r₂.enabled then some (false, r₂)
      else some (true, { r₂ with enabled := false, srs_publisher_id := none }))
    pre r post (fun y hy => beq_eq_false_iff_ne.mpr (hpre y hy))
    (by simp [hid])
  simp only [State.disable_input]
  rw [hd]
  cases he : r.enabled <;> simp [he]

theorem enable_output_decomp (ph : Option String) (pre : List Restream) (r : Restream)
    (post : List Restream) (id : InputId) (hid : r.id = id)
    (hpre : ∀ y ∈ pre, y.id ≠ id)
    (opre opost : List Output) (o : Output) (oid : OutputId)
    (houts : r.outputs = opre ++ o :: opost) (hoid : o.id = oid)
    (hopre : ∀ y ∈ opre, y.id ≠ oid) :
    State.enable_output id oid { password_hash := ph, restreams := pre ++ r :: post } =
      if o.enabled then
        (some false, { password_hash := ph, restreams := pre ++ r :: post })
      else
        (some true,
          { password_hash := ph,
            restreams := pre ++ { r with outputs := opre ++ { o with enabled := true } :: opost } :: post }) := by
  have hin := updateFirst_decomp
    (f := fun o₂ =>
      if o₂.enabled then some (false, o₂)
      else some (true, { o₂ with enabled := true }))
    opre o opost (fun y hy => beq_eq_false_iff_ne.mpr (hopre y hy))
    (by simp [hoid])
  have hd := updateFirst_decomp
    (f := fun r₂ =>
      (updateFirst (fun o₂ => o₂.id == oid)
        (fun o₂ =>
          if o₂.enabled then some (false, o₂)
          else some (true, { o₂ with enabled := true }))
        r₂.outputs).map (fun bo => (bo.1, { r₂ with outputs := bo.2 })))
    pre r post (fun y hy => beq_eq_false_iff_ne.mpr (hpre y hy))
    (by simp [hid])
  have hr2 : ({ r with outputs := opre ++ o :: opost } : Restream) = r := by
    rw [← houts]
  simp only [State.enable_output]
  rw [hd]
  simp only [houts, hin]
  cases he : o.enabled <;> simp [he, hr2]

theorem disable_output_decomp (ph : Option String) (pre : List Restream) (r : Restream)
    (post : List Restream) (id : InputId) (hid : r.id = id)
    (hpre : ∀ y ∈ pre, y.id ≠ id)
    (opre opost : List Output) (o : Output) (oid : OutputId)
    (houts : r.outputs = opre ++ o :: opost) (hoid : o.id = oid)
    (hopre : ∀ y ∈ opre, y.id ≠ oid) :
    State.disable_output id oid { password_hash := ph, restreams := pre ++ r :: post } =
      if o.enabled then
        (some true,
          { password_hash := ph,
            restreams := pre ++ { r with outputs := opre ++ { o with enabled := false } :: opost } :: post })
      else
        (some false, { password_hash := ph, restreams := pre ++ r :: post }) := by
  have hin := updateFirst_decomp
    (f := fun o₂ =>
      if !o₂.enabled then some (false, o₂)
      else some (true, { o₂ with enabled := false }))
    opre o opost (fun y hy => beq_eq_false_iff_ne.mpr (hopre y hy))
    (by simp [hoid])
  have hd := updateFirst_decomp
    (f := fun r₂ =>
      (updateFirst (fun o₂ => o₂.id == oid)
        (fun o₂ =>
          if !o₂.enabled then some (false, o₂)
          else some (true, { o₂ with enabled := false }))
        r₂.outputs).map (fun bo => (bo.1, { r₂ with outputs := bo.2 })))
    pre r post (fun y hy => beq_eq_false_iff_ne.mpr (hpre y hy))
    (by simp [hid])
  have hr2 : ({ r with outputs := opre ++ o :: opost } : Restream) = r := by
    rw [← houts]
  simp only [State.disable_output]
  rw [hd]
  simp only [houts, hin]
  cases he : o.enabled <;> simp [he, hr2]

/-!
Enable and disable idempotence (C6).  The claim as stated asserts that two
consecutive calls return `Some(true)` then `Some(false)` for every state
containing the id, but when the target is already in the requested state
the first call returns `Some(false)`.  Moreover, on an already-disabled
restream `disable_input` returns without clearing `srs_publisher_id`, so
the liveness clause only holds for the `Some(true)` return.  The amended
statement: the second call always returns `Some(false)`, the first returns
`Some(true)` exactly when the flag actually flips, and after
`disable_input` returns `Some(true)` the publisher id of that restream is
null.
-/

/-- C6 counterexample, refuting both parts of the claim as stated.
First: a state containing a restream with id 0 that is already enabled;
the first of two consecutive `enable_input` calls returns `Some(false)`,
not the claimed `Some(true)`.  Second: a state containing a restream with
id 1 that is already disabled while its `srs_publisher_id` is `Some(7)`;
`disable_input(1)` returns (with `Some(false)`) and the publisher id of
that restream is still `Some(7)`, not null as the claim requires after
every return of `disable_input`. -/
theorem C6_counterexample :
    ((({ password_hash := none,
         restreams := [{
           id := 0,
           input := Input.Push { name := "studio", status := Status.Offline },
           outputs := [],
           enabled := true,
           srs_publisher_id := none }] } : State).restreams.any
        (fun r => r.id == 0) = true) ∧
      (State.enable_input 0
        { password_hash := none,
          restreams := [{
            id := 0,
            input := Input.Push { name := "studio", status := Status.Offline },
            outputs := [],
            enabled := true,
            srs_publisher_id := none }] }).1 = some false) ∧
    ((({ password_hash := none,
         restreams := [{
           id := 1,
           input := Input.Push { name := "studio", status := Status.Offline },
           outputs := [],
           enabled := false,
           srs_publisher_id := some 7 }] } : State).restreams.any
        (fun r => r.id == 1) = true) ∧
      (State.disable_input 1
        { password_hash := none,
          restreams := [{
            id := 1,
            input := Input.Push { name := "studio", status := Status.Offline },
            outputs := [],
            enabled := false,
            srs_publisher_id := some 7 }] }).1 = some false ∧
      ((State.disable_input 1
        { password_hash := none,
          restreams := [{
            id := 1,
            input := Input.Push { name := "studio", status := Status.Offline },
            outputs := [],
            enabled := false,
            srs_publisher_id := some 7 }] }).2).restreams.any
        (fun r => r.id == 1 && r.srs_publisher_id == some 7) = true) := by
  decide

/-- C6 (amended): for every state whose restream list contains a restream
with the given id (first occurrence `r`): two consecutive calls of
`enable_input` return `Some(!r.enabled)` then `Some(false)`, and likewise
for `disable_input` (so the second call always returns `Some(false)`, and
the first returns `Some(true)` exactly when the flag flips); whenever
that restream moreover contains an output with the given output id (first
occurrence `o`), the same holds for `enable_output` and `disable_output`;
and when `disable_input` returns `Some(true)` the resulting state has
that restream disabled with its `srs_publisher_id` reset to null. -/
theorem C6_idempotent_mutators (s : State) (pre post : List Restream) (r : Restream)
    (id : InputId)
    (hs : s = { password_hash := s.password_hash, restreams := pre ++ r :: post })
    (hid : r.id = id) (hpre : ∀ y ∈ pre, y.id ≠ id) :
    ((State.enable_input id s).1 = some (!r.enabled) ∧
      (State.enable_input id (State.enable_input id s).2).1 = some false) ∧
    ((State.disable_input id s).1 = some r.enabled ∧
      (State.disable_input id (State.disable_input id s).2).1 = some false) ∧
    (∀ opre opost (o : Output) oid,
      r.outputs = opre ++ o :: opost → o.id = oid → (∀ y ∈ opre, y.id ≠ oid) →
      ((State.enable_output id oid s).1 = some (!o.enabled) ∧
        (State.enable_output id oid (State.enable_output id oid s).2).1 = some false) ∧
      ((State.disable_output id oid s).1 = some o.enabled ∧
        (State.disable_output id oid (State.disable_output id oid s).2).1 = some false)) ∧
    (r.enabled = true →
      State.disable_input id s = (some true,
        { password_hash := s.password_hash,
          restreams := pre ++ { r with enabled := false, srs_publisher_id := none } :: post })) := by
  rw [hs]
  refine ⟨⟨?_, ?_⟩, ⟨?_, ?_⟩, ?_, ?_⟩
  · rw [enable_input_decomp s.password_hash pre r post id hid hpre]
    cases he : r.enabled <;> simp [he]
  · rw [enable_input_decomp s.password_hash pre r post id hid hpre]
    cases he : r.enabled
    · simp only [Bool.false_eq_true, if_false]
      rw [enable_input_decomp s.password_hash pre { r with enabled := true } post id hid hpre]
      simp
    · simp only [if_true]
      rw [enable_input_decomp s.password_hash pre r post id hid hpre]
      simp [he]
  · rw [disable_input_decomp s.password_hash pre r post id hid hpre]
    cases he : r.enabled <;> simp [he]
  · rw [disable_input_decomp s.password_hash pre r post id hid hpre]
    cases he : r.enabled
    · simp only [Bool.false_eq_true, if_false]
      rw [disable_input_decomp s.password_hash pre r post id hid hpre]
      simp [he]
    · simp only [if_true]
      rw [disable_input_decomp s.password_hash pre
        { r with enabled := false, srs_publisher_id := none } post id hid hpre]
      simp
  · intro opre opost o oid houts hoid hopre
    refine ⟨⟨?_, ?_⟩, ⟨?_, ?_⟩⟩
    · rw [enable_output_decomp s.password_hash pre r post id hid hpre opre opost o oid houts hoid hopre]
      cases he : o.enabled <;> simp [he]
    · rw [enable_output_decomp s.password_hash pre r post id hid hpre opre opost o oid houts hoid hopre]
      cases he : o.enabled
      · simp only [Bool.false_eq_true, if_false]
        rw [enable_output_decomp s.password_hash pre
          { r with outputs := opre ++ { o with enabled := true } :: opost } post id hid hpre
          opre opost { o with enabled := true } oid rfl hoid hopre]
        simp
      · simp only [if_true]
        rw [enable_output_decomp s.password_hash pre r post id hid hpre opre opost o oid houts hoid hopre]
        simp [he]
    · rw [disable_output_decomp s.password_hash pre r post id hid hpre opre opost o oid houts hoid hopre]
      cases he : o.enabled <;> simp [he]
    · rw [disable_output_decomp s.password_hash pre r post id hid hpre opre opost o oid houts hoid hopre]
      cases he : o.enabled
      · simp only [Bool.false_eq_true, if_false]
        rw [disable_output_decomp s.password_hash pre r post id hid hpre opre opost o oid houts hoid hopre]
        simp [he]
      · simp only [if_true]
        rw [disable_output_decomp s.password_hash pre
          { r with outputs := opre ++ { o with enabled := false } :: opost } post id hid hpre
          opre opost { o with enabled := false } oid rfl hoid hopre]
        simp
  · intro he
    rw [disable_input_decomp s.password_hash pre r post id hid hpre]
    simp [he]

/-- Concrete output used by the C6 witness. -/
def c6_out : Output :=
  { id := 9, dst := "rtmp://cdn/a", label := none, enabled := false, status := Status.Offline }

/-- Concrete restream used by the C6 witness. -/
def c6_restream : Restream :=
  { id := 5,
    input := Input.Push { name := "studio", status := Status.Offline },
    outputs := [c6_out],
    enabled := false,
    srs_publisher_id := none }

/-- Concrete restream with no outputs used by the C6 witness. -/
def c6_bare_restream : Restream :=
  { id := 6,
    input := Input.Push { name := "late", status := Status.Offline },
    outputs := [],
    enabled := false,
    srs_publisher_id := none }

/-- Concrete state used by the C6 witness. -/
def c6_state : State := { password_hash := none, restreams := [c6_restream] }

/-- Concrete state whose only restream has no outputs, used by the C6
witness. -/
def c6_bare_state : State := { password_hash := none, restreams := [c6_bare_restream] }

/-- C6 witness: the amended statement applied to a concrete state holding
one disabled restream (id 5) with one disabled output (id 9), where the
first `enable_input` and `enable_output` calls both return `Some(true)`,
and to a concrete state whose only restream (id 6) has no outputs at all,
where the input conjuncts apply without any output in the state. -/
theorem C6_witness :
    (State.enable_input 5 c6_state).1 = some true ∧
    (State.enable_output 5 9 c6_state).1 = some true ∧
    (State.enable_input 6 c6_bare_state).1 = some true :=
  ⟨(C6_idempotent_mutators c6_state [] [] c6_restream 5 rfl rfl (by simp)).1.1,
   ((C6_idempotent_mutators c6_state [] [] c6_restream 5 rfl rfl (by simp)).2.2.1
     [] [] c6_out 9 rfl rfl (by simp)).1.1,
   (C6_idempotent_mutators c6_bare_state [] [] c6_bare_restream 6 rfl rfl (by simp)).1.1⟩

/-!
Tri-valued return of `add_pull_input` (C5).  The duplicate-ownership scan
runs before the `replace_id` lookup, so when `replace_id` names an absent
restream while another restream owns `src`, the call returns `Some(false)`
rather than the claimed `None`.
-/

theorem updateFirst_isSome_of_exists {p : α → Bool} {f : α → Option (β × α)}
    (hf : ∀ x, (f x).isSome = true) :
    ∀ {l : List α}, (∃ x ∈ l, p x = true) → (updateFirst p f l).isSome = true := by
  intro l
  induction l with
  | nil => rintro ⟨x, hx, _⟩; exact absurd hx (List.not_mem_nil x)
  | cons y ys ih =>
    rintro ⟨x, hx, hpx⟩
    by_cases hy : p y = true
    · rw [updateFirst, if_pos hy]
      cases hfy : f y with
      | none => exact absurd (hf y) (by simp [hfy])
      | some by₂ => simp
    · have hy₂ : p y = false := by simpa using hy
      rw [updateFirst, hy₂]
      simp only [Bool.false_eq_true, if_false]
      have hxy : x ∈ ys := by
        rcases List.mem_cons.mp hx with h | h
        · exact absurd (h ▸ hpx) (by simp [hy₂])
        · exact h
      cases hrec : updateFirst p f ys with
      | none => exact absurd (ih ⟨x, hxy, hpx⟩) (by simp [hrec])
      | some bys => simp

/-- Some other restream (one the replace id does not exempt) owns `src`
as a pull input: the semantic condition of the duplicate scan in
`State::add_pull_input`. -/
def another_owns_pull (src : Url) (rid : Option InputId) (rs : List Restream) : Prop :=
  ∃ r ∈ rs, (∃ i, r.input = Input.Pull i ∧ i.src = src) ∧ rid ≠ some r.id

theorem pull_scan_iff (src : Url) (rid : Option InputId) (rs : List Restream) :
    (rs.any (fun r =>
      match r.input with
      | Input.Pull i => src == i.src && rid != some r.id
      | Input.Push _ => false)) = true ↔ another_owns_pull src rid rs := by
  rw [List.any_eq_true]
  constructor
  · rintro ⟨r, hr, hp⟩
    cases hin : r.input with
    | Push i => rw [hin] at hp; exact absurd hp (by simp)
    | Pull i =>
      rw [hin] at hp
      simp only [Bool.and_eq_true, beq_iff_eq, bne_iff_ne, ne_eq] at hp
      exact ⟨r, hr, ⟨i, hin, hp.1.symm⟩, hp.2⟩
  · rintro ⟨r, hr, ⟨i, hin, hsrc⟩, hne⟩
    refine ⟨r, hr, ?_⟩
    rw [hin]
    simp [hsrc, hne]

/-- C5 counterexample: a state whose only restream (id 0) owns
`rtmp://a/x` as a pull input; calling `add_pull_input` with
`replace_id = Some(1)` (an id no restream has) returns `Some(false)`,
not the `None` the claim requires for a given-but-absent `replace_id`. -/
theorem C5_counterexample :
    (({ password_hash := none, restreams := [{
        id := 0,
        input := Input.Pull { src := "rtmp://a/x", status := Status.Offline },
        outputs := [], enabled := true, srs_publisher_id := none }] } : State).restreams.all
      (fun r => r.id != 1) = true) ∧
    (State.add_pull_input "rtmp://a/x" (some 1) 99 { password_hash := none, restreams := [{
        id := 0,
        input := Input.Pull { src := "rtmp://a/x", status := Status.Offline },
        outputs := [], enabled := true, srs_publisher_id := none }] }).1 = some false := by
  decide

/-- C5 (amended): the ownership scan takes precedence: `add_pull_input`
returns `Some(false)` whenever another restream (one whose id differs from
`replace_id`) owns `src` as a pull input, even when `replace_id` is given
but absent; when no such owner exists it returns `None` if `replace_id`
is given but no restream has that id, and `Some(true)` on create (no
`replace_id`) or replace (`replace_id` present in the state). -/
theorem C5_add_pull_input_tri_valued (s : State) (src : Url)
    (rid : Option InputId) (newId : InputId) :
    (another_owns_pull src rid s.restreams →
      State.add_pull_input src rid newId s = (some false, s)) ∧
    (¬ another_owns_pull src rid s.restreams →
      ∀ id, rid = some id → (∀ r ∈ s.restreams, r.id ≠ id) →
        State.add_pull_input src rid newId s = (none, s)) ∧
    (¬ another_owns_pull src rid s.restreams → rid = none →
      (State.add_pull_input src rid newId s).1 = some true) ∧
    (¬ another_owns_pull src rid s.restreams →
      ∀ id, rid = some id → (∃ r ∈ s.restreams, r.id = id) →
        (State.add_pull_input src rid newId s).1 = some true) := by
  refine ⟨?_, ?_, ?_, ?_⟩
  · intro h
    rw [State.add_pull_input, if_pos ((pull_scan_iff src rid s.restreams).mpr h)]
  · intro h id hrid habs
    have hscan : ¬ _ := fun hc => h ((pull_scan_iff src rid s.restreams).mp hc)
    rw [State.add_pull_input, if_neg (by simpa using hscan)]
    have hnone : updateFirst (fun r => r.id == id)
        (fun r =>
          if r.input.is (Input.Pull { src := src, status := Status.Offline }) then some ((), r)
          else some ((), { r with
            input := Input.Pull { src := src, status := Status.Offline },
            srs_publisher_id := none,
            outputs := r.outputs.map (fun o => { o with status := Status.Offline }) }))
        s.restreams = none :=
      updateFirst_nomatch (fun y hy => beq_eq_false_iff_ne.mpr (habs y hy))
    rw [hrid]
    simp only [add_input_to, hnone]
  · intro h hrid
    have hscan : ¬ _ := fun hc => h ((pull_scan_iff src rid s.restreams).mp hc)
    rw [State.add_pull_input, if_neg (by simpa using hscan), hrid]
    simp [add_input_to]
  · intro h id hrid hex
    have hscan : ¬ _ := fun hc => h ((pull_scan_iff src rid s.restreams).mp hc)
    rw [State.add_pull_input, if_neg (by simpa using hscan), hrid]
    have hsome := updateFirst_isSome_of_exists
      (p := fun r => r.id == id)
      (f := fun r =>
        if r.input.is (Input.Pull { src := src, status := Status.Offline }) then some ((), r)
        else some ((), { r with
          input := Input.Pull { src := src, status := Status.Offline },
          srs_publisher_id := none,
          outputs := r.outputs.map (fun o => { o with status := Status.Offline }) }))
      (fun x => by by_cases hx : x.input.is (Input.Pull { src := src, status := Status.Offline }) = true <;> simp [hx])
      (l := s.restreams)
      (by
        obtain ⟨r, hr, hrid₂⟩ := hex
        exact ⟨r, hr, by simp [hrid₂]⟩)
    simp only [add_input_to]
    cases hu : updateFirst (fun r => r.id == id)
        (fun r =>
          if r.input.is (Input.Pull { src := src, status := Status.Offline }) then some ((), r)
          else some ((), { r with
            input := Input.Pull { src := src, status := Status.Offline },
            srs_publisher_id := none,
            outputs := r.outputs.map (fun o => { o with status := Status.Offline }) }))
        s.restreams with
    | none => exact absurd hsome (by simp [hu])
    | some brs => rfl

/-- C5 witness: in the concrete one-restream state owning `rtmp://a/x`,
the scan clause of the amended statement yields `Some(false)` for a plain
create call with the same source. -/
theorem C5_witness :
    State.add_pull_input "rtmp://a/x" none 7 { password_hash := none, restreams := [{
        id := 0,
        input := Input.Pull { src := "rtmp://a/x", status := Status.Offline },
        outputs := [], enabled := true, srs_publisher_id := none }] } =
      (some false, { password_hash := none, restreams := [{
        id := 0,
        input := Input.Pull { src := "rtmp://a/x", status := Status.Offline },
        outputs := [], enabled := true, srs_publisher_id := none }] }) :=
  (C5_add_pull_input_tri_valued _ "rtmp://a/x" none 7).1
    ⟨{ id := 0,
       input := Input.Pull { src := "rtmp://a/x", status := Status.Offline },
       outputs := [], enabled := true, srs_publisher_id := none },
     by simp,
     ⟨{ src := "rtmp://a/x", status := Status.Offline }, rfl, rfl⟩,
     by simp⟩

/-!
Replace semantics of `add_*_input` with a `replace_id` (C4).
-/

theorem add_input_to_decomp (pre : List Restream) (r : Restream) (post : List Restream)
    (input : Input) (id newId : InputId)
    (hid : r.id = id) (hpre : ∀ y ∈ pre, y.id ≠ id) :
    add_input_to (pre ++ r :: post) input (some id) newId =
      (some true, pre ++
        (if r.input.is input then r
         else { r with
           input := input,
           srs_publisher_id := none,
           outputs := r.outputs.map (fun o => { o with status := Status.Offline }) }) :: post) := by
  have hd := updateFirst_decomp
    (f := fun r₂ =>
      if r₂.input.is input then some ((), r₂)
      else some ((), { r₂ with
        input := input,
        srs_publisher_id := none,
        outputs := r₂.outputs.map (fun o => { o with status := Status.Offline }) }))
    pre r post (fun y hy => beq_eq_false_iff_ne.mpr (hpre y hy))
    (by simp [hid])
  simp only [add_input_to]
  rw [hd]
  cases hin : r.input.is input <;> simp [hin]

/-- The semantic condition of the push duplicate scan in
`State::add_push_input`. -/
def another_owns_push (name : String) (rid : Option InputId) (rs : List Restream) : Prop :=
  ∃ r ∈ rs, (∃ i, r.input = Input.Push i ∧ i.name = name) ∧ rid ≠ some r.id

theorem push_scan_iff (name : String) (rid : Option InputId) (rs : List Restream) :
    (rs.any (fun r =>
      match r.input with
      | Input.Push i => name == i.name && rid != some r.id
      | Input.Pull _ => false)) = true ↔ another_owns_push name rid rs := by
  rw [List.any_eq_true]
  constructor
  · rintro ⟨r, hr, hp⟩
    cases hin : r.input with
    | Pull i => rw [hin] at hp; exact absurd hp (by simp)
    | Push i =>
      rw [hin] at hp
      simp only [Bool.and_eq_true, beq_iff_eq, bne_iff_ne, ne_eq] at hp
      exact ⟨r, hr, ⟨i, hin, hp.1.symm⟩, hp.2⟩
  · rintro ⟨r, hr, ⟨i, hin, hname⟩, hne⟩
    refine ⟨r, hr, ?_⟩
    rw [hin]
    simp [hname, hne]

/-- C4: replace semantics.  For a state whose restream list contains a
restream with id `rid` (first occurrence `r`) and in which every owner of
the new identity is that restream itself: if the new input is
identity-equal to the current one, the state is unchanged and `Some(true)`
is returned; otherwise the input is swapped in place, the publisher id is
cleared and every output status reset to `Offline`, while the restream id,
its enabled flag, and the outputs with their ids, destinations, labels,
enabled flags and order are preserved, again returning `Some(true)`.
Both the pull and the push variant are covered. -/
theorem C4_replace_semantics (s : State) (pre post : List Restream) (r : Restream)
    (rid newId : InputId)
    (hs : s = { password_hash := s.password_hash, restreams := pre ++ r :: post })
    (hid : r.id = rid) (hpre : ∀ y ∈ pre, y.id ≠ rid) :
    (∀ src,
      (∀ r₂ ∈ s.restreams, ∀ i, r₂.input = Input.Pull i → i.src = src → r₂.id = rid) →
      (r.input.is (Input.Pull { src := src, status := Status.Offline }) = true →
        State.add_pull_input src (some rid) newId s = (some true, s)) ∧
      (r.input.is (Input.Pull { src := src, status := Status.Offline }) = false →
        State.add_pull_input src (some rid) newId s = (some true,
          { password_hash := s.password_hash, restreams := pre ++ { r with
              input := Input.Pull { src := src, status := Status.Offline },
              srs_publisher_id := none,
              outputs := r.outputs.map (fun o => { o with status := Status.Offline }) } :: post }))) ∧
    (∀ name,
      (∀ r₂ ∈ s.restreams, ∀ i, r₂.input = Input.Push i → i.name = name → r₂.id = rid) →
      (r.input.is (Input.Push { name := name, status := Status.Offline }) = true →
        State.add_push_input name (some rid) newId s = (some true, s)) ∧
      (r.input.is (Input.Push { name := name, status := Status.Offline }) = false →
        State.add_push_input name (some rid) newId s = (some true,
          { password_hash := s.password_hash, restreams := pre ++ { r with
              input := Input.Push { name := name, status := Status.Offline },
              srs_publisher_id := none,
              outputs := r.outputs.map (fun o => { o with status := Status.Offline }) } :: post }))) := by
  constructor
  · intro src howner
    have hscan : ¬ ((pre ++ r :: post).any (fun r₂ =>
        match r₂.input with
        | Input.Pull i => src == i.src && some rid != some r₂.id
        | Input.Push _ => false)) = true := by
      intro hc
      obtain ⟨r₂, hr₂, ⟨i, hin, hsrc⟩, hne⟩ := (pull_scan_iff src (some rid) _).mp hc
      exact hne (by rw [howner r₂ (hs ▸ hr₂ : r₂ ∈ s.restreams) i hin hsrc])
    constructor
    · intro hin
      rw [hs, State.add_pull_input, if_neg (by simpa using hscan),
        add_input_to_decomp pre r post _ rid newId hid hpre]
      simp [hin]
    · intro hin
      rw [hs, State.add_pull_input, if_neg (by simpa using hscan),
        add_input_to_decomp pre r post _ rid newId hid hpre]
      simp [hin]
  · intro name howner
    have hscan : ¬ ((pre ++ r :: post).any (fun r₂ =>
        match r₂.input with
        | Input.Push i => name == i.name && some rid != some r₂.id
        | Input.Pull _ => false)) = true := by
      intro hc
      obtain ⟨r₂, hr₂, ⟨i, hin, hname⟩, hne⟩ := (push_scan_iff name (some rid) _).mp hc
      exact hne (by rw [howner r₂ (hs ▸ hr₂ : r₂ ∈ s.restreams) i hin hname])
    constructor
    · intro hin
      rw [hs, State.add_push_input, if_neg (by simpa using hscan),
        add_input_to_decomp pre r post _ rid newId hid hpre]
      simp [hin]
    · intro hin
      rw [hs, State.add_push_input, if_neg (by simpa using hscan),
        add_input_to_decomp pre r post _ rid newId hid hpre]
      simp [hin]

/-- Concrete restream used by the C4 witness. -/
def c4_restream : Restream :=
  { id := 3,
    input := Input.Pull { src := "rtmp://a/x", status := Status.Online },
    outputs := [],
    enabled := true,
    srs_publisher_id := some 42 }

/-- Concrete state used by the C4 witness. -/
def c4_state : State := { password_hash := none, restreams := [c4_restream] }

/-- C4 witness: replacing the pull input of restream 3 with an
identity-equal pull input (same source) leaves the concrete state
unchanged and returns `Some(true)`. -/
theorem C4_witness :
    State.add_pull_input "rtmp://a/x" (some 3) 8 c4_state = (some true, c4_state) :=
  ((C4_replace_semantics c4_state [] [] c4_restream 3 8 rfl rfl (by simp)).1
    "rtmp://a/x"
    (by
      intro r₂ hr₂ i hin hsrc
      rcases List.mem_singleton.mp hr₂ with rfl
      rfl)).1 (by decide)

/-!
Callback atomicity (C9): every error path of the three handlers returns
before any mutation, so an erroring callback leaves the state untouched.
-/

/-- C9: whenever `on_connect`, `on_publish` or `on_unpublish` returns an
error (mapped to HTTP 403 or 404), the restream list is exactly the one
before the call, and the dispatching `callback` endpoint likewise leaves
the whole state unchanged on every error. -/
theorem C9_callback_atomicity (req : Srs.Request) (rs : List Restream) (s : State) :
    (∀ e, (on_connect req rs).1 = Except.error e → (on_connect req rs).2 = rs) ∧
    (∀ e, (on_publish req rs).1 = Except.error e → (on_publish req rs).2 = rs) ∧
    (∀ e, (on_unpublish req rs).1 = Except.error e → (on_unpublish req rs).2 = rs) ∧
    (∀ e, (callback req s).1 = Except.error e → (callback req s).2 = s) := by
  have hconn : ∀ (rs : List Restream) e,
      (on_connect req rs).1 = Except.error e → (on_connect req rs).2 = rs := by
    intro rs e _
    unfold on_connect
    split <;> rfl
  have hpub : ∀ (rs : List Restream) e,
      (on_publish req rs).1 = Except.error e → (on_publish req rs).2 = rs := by
    intro rs e he
    unfold on_publish at he ⊢
    split at he
    next h => rw [if_pos h]
    next h =>
      rw [if_neg h]
      cases hpu : publish_update req rs with
      | none => rfl
      | some ex =>
        cases ex with
        | error e₂ => rfl
        | ok rs₂ => rw [hpu] at he; simp at he
  have hunp : ∀ (rs : List Restream) e,
      (on_unpublish req rs).1 = Except.error e → (on_unpublish req rs).2 = rs := by
    intro rs e he
    unfold on_unpublish at he ⊢
    cases hu : updateFirst (fun r => r.input.uses_srs_app req.app)
        (fun r => some ((), { r with
          srs_publisher_id := none,
          input := r.input.set_status Status.Offline }))
        rs with
    | none => rfl
    | some brs => rw [hu] at he; simp at he
  refine ⟨hconn rs, hpub rs, hunp rs, ?_⟩
  intro e he
  simp only [callback] at he ⊢
  cases hact : req.action <;> simp only [hact] at he ⊢
  · cases hres : (on_connect req s.restreams).1 with
    | ok v => rw [hres] at he; exact absurd he (by simp [Except.map])
    | error a =>
      have h₂ := hconn s.restreams a hres
      rw [h₂]
  · cases hres : (on_publish req s.restreams).1 with
    | ok v => rw [hres] at he; exact absurd he (by simp [Except.map])
    | error a =>
      have h₂ := hpub s.restreams a hres
      rw [h₂]
  · cases hres : (on_unpublish req s.restreams).1 with
    | ok v => rw [hres] at he; exact absurd he (by simp [Except.map])
    | error a =>
      have h₂ := hunp s.restreams a hres
      rw [h₂]

/-- C9 witness: a concrete `on_connect` with no restreams errors and the
restream list is unchanged. -/
theorem C9_witness :
    (on_connect
      { action := Srs.Action.OnConnect,
        app := "studio",
        stream := none,
        client_id := 1,
        ip := IpAddr.v4 127 0 0 1 } []).2 = [] :=
  (C9_callback_atomicity
    { action := Srs.Action.OnConnect,
      app := "studio",
      stream := none,
      client_id := 1,
      ip := IpAddr.v4 127 0 0 1 } [] State.default).1
    CbError.notFound rfl

/-!
Gating behaviour of `on_publish` (C8).
-/

theorem Input.status_set_status (i : Input) (st : Status) :
    (i.set_status st).status = st := by
  cases i <;> rfl

theorem publish_update_nomatch (req : Srs.Request) :
    ∀ {rs : List Restream},
      (∀ r ∈ rs, (r.enabled && r.input.uses_srs_app req.app) = false) →
      publish_update req rs = none
  | [], _ => rfl
  | r :: rs, h => by
    have hr : (r.enabled && r.input.uses_srs_app req.app) = false :=
      h r (List.mem_cons_self r rs)
    have hrs : publish_update req rs = none :=
      publish_update_nomatch req (fun y hy => h y (List.mem_cons_of_mem r hy))
    simp [publish_update, hr, hrs]

theorem publish_update_decomp (req : Srs.Request) (pre : List Restream)
    (r : Restream) (post : List Restream)
    (hpre : ∀ y ∈ pre, (y.enabled && y.input.uses_srs_app req.app) = false)
    (hr : (r.enabled && r.input.uses_srs_app req.app) = true) :
    publish_update req (pre ++ r :: post) =
      if r.input.is_pull && !req.ip.is_loopback then
        some (Except.error CbError.forbidden)
      else
        some (Except.ok (pre ++ { r with
          srs_publisher_id := some req.client_id,
          input := r.input.set_status Status.Online } :: post)) := by
  induction pre with
  | nil =>
    simp only [List.nil_append, publish_update, hr, if_true]
    cases hg : r.input.is_pull && !req.ip.is_loopback
    · simp only [Bool.false_eq_true, if_false]
      by_cases hp : r.srs_publisher_id = some req.client_id
      · simp [hp]
      · simp [hp]
    · simp
  | cons y ys ih =>
    have hy : (y.enabled && y.input.uses_srs_app req.app) = false :=
      hpre y (List.mem_cons_self y ys)
    have ihh := ih (fun z hz => hpre z (List.mem_cons_of_mem y hz))
    simp only [List.cons_append, publish_update, hy, Bool.false_eq_true, if_false,
      List.append_eq, ihh]
    cases hg : r.input.is_pull && !req.ip.is_loopback <;> simp [Except.map]

/-- C8: gating of `on_publish`: a `stream` field other than `in`
(including absent) yields not-found (HTTP 404) with the state unchanged;
no enabled restream matching the app yields not-found with the state
unchanged; a matched pull input with a non-loopback caller ip yields
forbidden (HTTP 403) with the state unchanged; otherwise the matched
restream gets `srs_publisher_id := client_id` and its input status becomes
`Online`, and the `callback` endpoint responds with body `0`. -/
theorem C8_on_publish_gating (req : Srs.Request) (rs : List Restream) :
    (req.stream ≠ some "in" →
      on_publish req rs = (Except.error CbError.notFound, rs)) ∧
    (req.stream = some "in" →
      (∀ r ∈ rs, (r.enabled && r.input.uses_srs_app req.app) = false) →
      on_publish req rs = (Except.error CbError.notFound, rs)) ∧
    (∀ pre r post, rs = pre ++ r :: post →
      (∀ y ∈ pre, (y.enabled && y.input.uses_srs_app req.app) = false) →
      (r.enabled && r.input.uses_srs_app req.app) = true →
      req.stream = some "in" →
      (r.input.is_pull = true → req.ip.is_loopback = false →
        on_publish req rs = (Except.error CbError.forbidden, rs)) ∧
      ((r.input.is_pull = true → req.ip.is_loopback = true) →
        on_publish req rs = (Except.ok (), pre ++ { r with
          srs_publisher_id := some req.client_id,
          input := r.input.set_status Status.Online } :: post) ∧
        ({ r with
          srs_publisher_id := some req.client_id,
          input := r.input.set_status Status.Online } : Restream).input.status = Status.Online ∧
        (∀ ph, req.action = Srs.Action.OnPublish →
          callback req { password_hash := ph, restreams := rs } =
            (Except.ok "0", { password_hash := ph, restreams := pre ++ { r with
              srs_publisher_id := some req.client_id,
              input := r.input.set_status Status.Online } :: post })))) ∧
    (CbError.http_status CbError.notFound = 404 ∧
      CbError.http_status CbError.forbidden = 403) := by
  refine ⟨?_, ?_, ?_, rfl, rfl⟩
  · intro h
    rw [on_publish, if_pos (by simpa using h)]
  · intro h hno
    rw [on_publish, if_neg (by simpa using h), publish_update_nomatch req hno]
  · intro pre r post hrs hpre hr hst
    have hdec := publish_update_decomp req pre r post hpre hr
    constructor
    · intro hpull hip
      rw [hrs, on_publish, if_neg (by simpa using hst), hdec,
        if_pos (by simp [hpull, hip])]
    · intro hloop
      have hg : (r.input.is_pull && !req.ip.is_loopback) = false := by
        cases hp : r.input.is_pull
        · simp
        · simp [hloop hp]
      have hpub : on_publish req rs = (Except.ok (), pre ++ { r with
          srs_publisher_id := some req.client_id,
          input := r.input.set_status Status.Online } :: post) := by
        rw [hrs, on_publish, if_neg (by simpa using hst), hdec, if_neg (by simp [hg])]
      refine ⟨hpub, Input.status_set_status r.input Status.Online, ?_⟩
      intro ph hact
      simp only [callback, hact, hpub]
      rfl

/-- Concrete enabled push restream used by the C8 witness. -/
def c8_restream : Restream :=
  { id := 2,
    input := Input.Push { name := "studio", status := Status.Offline },
    outputs := [],
    enabled := true,
    srs_publisher_id := none }

/-- Concrete publish request used by the C8 witness. -/
def c8_req : Srs.Request :=
  { action := Srs.Action.OnPublish,
    app := "studio",
    stream := some "in",
    client_id := 42,
    ip := IpAddr.v4 8 8 8 8 }

/-- C8 witness: publishing into the enabled push restream `studio` from a
non-loopback ip succeeds, records publisher 42 and flips the status to
`Online`. -/
theorem C8_witness :
    on_publish c8_req [c8_restream] = (Except.ok (),
      [{ c8_restream with
          srs_publisher_id := some 42,
          input := c8_restream.input.set_status Status.Online }]) :=
  (((C8_on_publish_gating c8_req [c8_restream]).2.2.1 [] c8_restream [] rfl
      (by simp) (by decide) rfl).2 (by decide)).1

/-!
Input identity uniqueness as an invariant (C1).
-/

theorem beq_symm {α : Type _} [BEq α] [LawfulBEq α] (a b : α) : (a == b) = (b == a) := by
  cases h : a == b
  · exact (beq_eq_false_iff_ne.mpr (Ne.symm (beq_eq_false_iff_ne.mp h))).symm
  · exact (beq_iff_eq.mpr (beq_iff_eq.mp h).symm).symm

theorem Input.is_symm (a b : Input) : a.is b = b.is a := by
  cases a <;> cases b <;>
    simp only [Input.is, PullInput.is, PushInput.is] <;>
    first
      | rfl
      | exact beq_symm _ _

/-- All restream ids are pairwise distinct (guaranteed by the random
UUID generator in the source). -/
def ids_distinct (rs : List Restream) : Prop := (rs.map Restream.id).Nodup

/-- No two restreams share the same `(kind, identity)`: `src` for pull
inputs and `name` for push inputs, which is exactly the `Input::is`
comparison. -/
def identity_unique (rs : List Restream) : Prop :=
  List.Pairwise (fun a b => a.input.is b.input = false) rs

theorem inv_of_maps_eq {rs rs₂ : List Restream}
    (hid : rs₂.map Restream.id = rs.map Restream.id)
    (hin : rs₂.map Restream.input = rs.map Restream.input)
    (h1 : ids_distinct rs) (h2 : identity_unique rs) :
    ids_distinct rs₂ ∧ identity_unique rs₂ := by
  constructor
  · unfold ids_distinct at h1 ⊢
    rw [hid]
    exact h1
  · unfold identity_unique at h2 ⊢
    have h2m := (List.pairwise_map
      (R := fun x y => Input.is x y = false) (f := Restream.input) (l := rs)).mpr h2
    rw [← hin] at h2m
    exact (List.pairwise_map
      (R := fun x y => Input.is x y = false) (f := Restream.input) (l := rs₂)).mp h2m

theorem updateFirst_inv {p : Restream → Bool} {f : Restream → Option (Unit × Restream)}
    {rs : List Restream} {b : Unit} {rs₂ : List Restream}
    (hu : updateFirst p f rs = some (b, rs₂))
    (hf : ∀ x b₂ x₂, f x = some (b₂, x₂) → x₂.id = x.id ∧ x₂.input = x.input)
    (h1 : ids_distinct rs) (h2 : identity_unique rs) :
    ids_distinct rs₂ ∧ identity_unique rs₂ :=
  inv_of_maps_eq
    (updateFirst_map hu (fun x _ b₂ x₂ hfx => (hf x b₂ x₂ hfx).1))
    (updateFirst_map hu (fun x _ b₂ x₂ hfx => (hf x b₂ x₂ hfx).2))
    h1 h2

theorem add_input_to_append_inv (rs : List Restream) (input : Input) (newId : InputId)
    (h1 : ids_distinct rs) (h2 : identity_unique rs)
    (hfresh : newId ∉ rs.map Restream.id)
    (hno : ∀ y ∈ rs, y.input.is input = false) :
    ids_distinct (add_input_to rs input none newId).2 ∧
      identity_unique (add_input_to rs input none newId).2 := by
  simp only [add_input_to]
  constructor
  · unfold ids_distinct
    rw [List.map_append, List.nodup_append]
    refine ⟨h1, by simp, ?_⟩
    intro a ha hb
    simp only [List.map_cons, List.map_nil, List.mem_singleton] at hb
    exact hfresh (hb ▸ ha)
  · unfold identity_unique
    rw [List.pairwise_append]
    refine ⟨h2, by simp, ?_⟩
    intro a ha b hb
    rcases List.mem_singleton.mp hb with rfl
    exact hno a ha

theorem add_input_to_replace_inv (rs : List Restream) (input : Input) (id newId : InputId)
    (h1 : ids_distinct rs) (h2 : identity_unique rs)
    (hown : ∀ y ∈ rs, y.input.is input = true → y.id = id) :
    ids_distinct (add_input_to rs input (some id) newId).2 ∧
      identity_unique (add_input_to rs input (some id) newId).2 := by
  simp only [add_input_to]
  cases hu : updateFirst (fun r => r.id == id)
      (fun r =>
        if r.input.is input then some ((), r)
        else some ((), { r with
          input := input,
          srs_publisher_id := none,
          outputs := r.outputs.map (fun o => { o with status := Status.Offline }) }))
      rs with
  | none => exact ⟨h1, h2⟩
  | some brs =>
    obtain ⟨bb, rs₀⟩ := brs
    obtain ⟨pre, x, post, x₂, hrs, hrs₂, hpre, hpx, hfx⟩ :=
      updateFirst_some hu
    simp only
    rw [hrs₂]
    have hxid : x.id = id := by simpa using hpx
    by_cases his : x.input.is input = true
    · rw [if_pos his] at hfx
      simp only [Option.some.injEq, Prod.mk.injEq] at hfx
      cases hfx.2
      rw [← hrs]
      exact ⟨h1, h2⟩
    · have his₂ : x.input.is input = false := by simpa using his
      rw [if_neg (by simp [his₂])] at hfx
      simp only [Option.some.injEq, Prod.mk.injEq] at hfx
      cases hfx.2
      have hids : (pre ++ ({ x with
          input := input,
          srs_publisher_id := none,
          outputs := x.outputs.map (fun o => { o with status := Status.Offline }) }) :: post).map Restream.id
          = (pre ++ x :: post).map Restream.id := by
        simp
      constructor
      · unfold ids_distinct
        rw [hids, ← hrs]
        exact h1
      · unfold identity_unique
        have hsym : ∀ {a b : Restream}, a.input.is b.input = false → b.input.is a.input = false := by
          intro a b hab
          rw [Input.is_symm]
          exact hab
      
        rw [hrs] at h2 h1
        have h2m := (List.pairwise_middle (fun hab => hsym hab)).mp h2
        rw [List.pairwise_cons] at h2m
        refine (List.pairwise_middle (fun hab => hsym hab)).mpr ?_
        rw [List.pairwise_cons]
        refine ⟨?_, h2m.2⟩
        intro y hy
        show Input.is input y.input = false
        by_cases hyi : y.input.is input = true
        · exfalso
          have hyid : y.id = id := hown y (by
            rw [hrs]
            rcases List.mem_append.mp hy with h | h
            · exact List.mem_append.mpr (Or.inl h)
            · exact List.mem_append.mpr (Or.inr (List.mem_cons_of_mem x h))) hyi
          rcases List.mem_append.mp hy with h | h
          · exact absurd hyid (beq_eq_false_iff_ne.mp (hpre y h))
          · unfold ids_distinct at h1
            rw [List.map_append, List.map_cons, List.nodup_append] at h1
            have hxpost := (List.nodup_cons.mp h1.2.1).1
            exact hxpost (by
              rw [← hxid] at hyid
              exact hyid ▸ List.mem_map_of_mem Restream.id h)
        · rw [Input.is_symm]
          simpa using hyi

theorem add_pull_input_inv (src : Url) (rid : Option InputId) (newId : InputId) (s : State)
    (hfresh : newId ∉ s.restreams.map Restream.id)
    (h1 : ids_distinct s.restreams) (h2 : identity_unique s.restreams) :
    ids_distinct (State.add_pull_input src rid newId s).2.restreams ∧
      identity_unique (State.add_pull_input src rid newId s).2.restreams := by
  unfold State.add_pull_input
  cases hscan : s.restreams.any (fun r =>
      match r.input with
      | Input.Pull i => src == i.src && rid != some r.id
      | Input.Push _ => false) with
  | true =>
    simp only [if_true]
    exact ⟨h1, h2⟩
  | false =>
    simp only [Bool.false_eq_true, if_false]
    have hall := List.any_eq_false.mp hscan
    cases rid with
    | none =>
      exact add_input_to_append_inv s.restreams _ newId h1 h2 hfresh (by
        intro y hy
        cases hin : y.input with
        | Push p => simp [Input.is, hin]
        | Pull j =>
          have hy₂ := hall y hy
          rw [hin] at hy₂
          simp only [Bool.and_eq_true, not_and, bne_iff_ne, ne_eq] at hy₂
          have hsrc : (src == j.src) = false := by
            cases hc : src == j.src
            · rfl
            · exact absurd (show ¬ (none = some y.id) by simp) (hy₂ hc)
          simp only [hin, Input.is, PullInput.is]
          rw [beq_symm]
          exact hsrc)
    | some id =>
      exact add_input_to_replace_inv s.restreams _ id newId h1 h2 (by
        intro y hy hyis
        cases hin : y.input with
        | Push p => rw [hin] at hyis; exact absurd hyis (by simp [Input.is])
        | Pull j =>
          rw [hin] at hyis
          simp only [Input.is, PullInput.is] at hyis
          have hsrc : j.src = src := beq_iff_eq.mp hyis
          have hy₂ := hall y hy
          rw [hin] at hy₂
          simp only [Bool.and_eq_true, not_and, bne_iff_ne, ne_eq, not_not] at hy₂
          have := hy₂ (beq_iff_eq.mpr hsrc.symm)
          injection this with h₃
          exact h₃.symm)

theorem add_push_input_inv (name : String) (rid : Option InputId) (newId : InputId) (s : State)
    (hfresh : newId ∉ s.restreams.map Restream.id)
    (h1 : ids_distinct s.restreams) (h2 : identity_unique s.restreams) :
    ids_distinct (State.add_push_input name rid newId s).2.restreams ∧
      identity_unique (State.add_push_input name rid newId s).2.restreams := by
  unfold State.add_push_input
  cases hscan : s.restreams.any (fun r =>
      match r.input with
      | Input.Push i => name == i.name && rid != some r.id
      | Input.Pull _ => false) with
  | true =>
    simp only [if_true]
    exact ⟨h1, h2⟩
  | false =>
    simp only [Bool.false_eq_true, if_false]
    have hall := List.any_eq_false.mp hscan
    cases rid with
    | none =>
      exact add_input_to_append_inv s.restreams _ newId h1 h2 hfresh (by
        intro y hy
        cases hin : y.input with
        | Pull p => simp [Input.is, hin]
        | Push j =>
          have hy₂ := hall y hy
          rw [hin] at hy₂
          simp only [Bool.and_eq_true, not_and, bne_iff_ne, ne_eq] at hy₂
          have hname : (name == j.name) = false := by
            cases hc : name == j.name
            · rfl
            · exact absurd (show ¬ (none = some y.id) by simp) (hy₂ hc)
          simp only [hin, Input.is, PushInput.is]
          rw [beq_symm]
          exact hname)
    | some id =>
      exact add_input_to_replace_inv s.restreams _ id newId h1 h2 (by
        intro y hy hyis
        cases hin : y.input with
        | Pull p => rw [hin] at hyis; exact absurd hyis (by simp [Input.is])
        | Push j =>
          rw [hin] at hyis
          simp only [Input.is, PushInput.is] at hyis
          have hname : j.name = name := beq_iff_eq.mp hyis
          have hy₂ := hall y hy
          rw [hin] at hy₂
          simp only [Bool.and_eq_true, not_and, bne_iff_ne, ne_eq, not_not] at hy₂
          have := hy₂ (beq_iff_eq.mpr hname.symm)
          injection this with h₃
          exact h₃.symm)

theorem remove_input_inv (id : InputId) (s : State)
    (h1 : ids_distinct s.restreams) (h2 : identity_unique s.restreams) :
    ids_distinct (State.remove_input id s).2.restreams ∧
      identity_unique (State.remove_input id s).2.restreams := by
  simp only [State.remove_input]
  have hsub := List.filter_sublist (p := fun r => r.id != id) s.restreams
  exact ⟨List.Nodup.sublist (hsub.map Restream.id) h1, h2.sublist hsub⟩

theorem enable_input_inv (id : InputId) (s : State)
    (h1 : ids_distinct s.restreams) (h2 : identity_unique s.restreams) :
    ids_distinct (State.enable_input id s).2.restreams ∧
      identity_unique (State.enable_input id s).2.restreams := by
  unfold State.enable_input
  cases hu : updateFirst (fun r => r.id == id)
      (fun r =>
        if r.enabled then some (false, r)
        else some (true, { r with enabled := true }))
      s.restreams with
  | none => exact ⟨h1, h2⟩
  | some brs =>
    obtain ⟨b₀, rs₀⟩ := brs
    show ids_distinct rs₀ ∧ identity_unique rs₀
    refine inv_of_maps_eq ?_ ?_ h1 h2 <;>
      refine updateFirst_map hu ?_ <;>
      · intro x _ b₂ x₂ hfx
        split at hfx <;>
          (simp only [Option.some.injEq, Prod.mk.injEq] at hfx; cases hfx.2; rfl)

theorem disable_input_inv (id : InputId) (s : State)
    (h1 : ids_distinct s.restreams) (h2 : identity_unique s.restreams) :
    ids_distinct (State.disable_input id s).2.restreams ∧
      identity_unique (State.disable_input id s).2.restreams := by
  unfold State.disable_input
  cases hu : updateFirst (fun r => r.id == id)
      (fun r =>
        if !r.enabled then some (false, r)
        else some (true, { r with enabled := false, srs_publisher_id := none }))
      s.restreams with
  | none => exact ⟨h1, h2⟩
  | some brs =>
    obtain ⟨b₀, rs₀⟩ := brs
    show ids_distinct rs₀ ∧ identity_unique rs₀
    refine inv_of_maps_eq ?_ ?_ h1 h2 <;>
      refine updateFirst_map hu ?_ <;>
      · intro x _ b₂ x₂ hfx
        split at hfx <;>
          (simp only [Option.some.injEq, Prod.mk.injEq] at hfx; cases hfx.2; rfl)

/-- One mutation step of the restricted history of claim C1: any call of
`add_pull_input`, `add_push_input`, `remove_input`, `enable_input` or
`disable_input` with arbitrary arguments.  Fresh ids delivered by
`InputId::new()` are modelled by the freshness hypothesis on the adds. -/
inductive Step5 : State → State → Prop where
  | add_pull (src : Url) (rid : Option InputId) (newId : InputId) (s : State)
      (h : newId ∉ s.restreams.map Restream.id) :
      Step5 s (State.add_pull_input src rid newId s).2
  | add_push (name : String) (rid : Option InputId) (newId : InputId) (s : State)
      (h : newId ∉ s.restreams.map Restream.id) :
      Step5 s (State.add_push_input name rid newId s).2
  | remove_input (id : InputId) (s : State) : Step5 s (State.remove_input id s).2
  | enable_input (id : InputId) (s : State) : Step5 s (State.enable_input id s).2
  | disable_input (id : InputId) (s : State) : Step5 s (State.disable_input id s).2

/-- States reachable from the empty default state by the five mutators of
claim C1. -/
inductive Reach5 : State → Prop where
  | init : Reach5 State.default
  | step {s s₂ : State} : Reach5 s → Step5 s s₂ → Reach5 s₂

theorem step5_inv {s s₂ : State} (hst : Step5 s s₂)
    (h1 : ids_distinct s.restreams) (h2 : identity_unique s.restreams) :
    ids_distinct s₂.restreams ∧ identity_unique s₂.restreams := by
  cases hst with
  | add_pull src rid newId _ h => exact add_pull_input_inv src rid newId s h h1 h2
  | add_push name rid newId _ h => exact add_push_input_inv name rid newId s h h1 h2
  | remove_input id => exact remove_input_inv id s h1 h2
  | enable_input id => exact enable_input_inv id s h1 h2
  | disable_input id => exact disable_input_inv id s h1 h2

theorem reach5_inv : ∀ {s : State}, Reach5 s →
    ids_distinct s.restreams ∧ identity_unique s.restreams := by
  intro s h
  induction h with
  | init =>
    exact ⟨by simp [State.default, ids_distinct], by simp [State.default, identity_unique]⟩
  | step _ hst ih => exact step5_inv hst ih.1 ih.2

/-- C1: input identity uniqueness is an invariant.  In every state
reachable from the empty state by any sequence of `add_pull_input`,
`add_push_input`, `remove_input`, `enable_input` and `disable_input`
calls, no two restreams share the same `(kind, identity)` (the
`Input::is` comparison: `src` for pull, `name` for push); and a mutation
that would violate it (some restream not exempted by `replace_id` already
owns the identity) is rejected with `Some(false)` leaving the state
unchanged. -/
theorem C1_input_identity_uniqueness (s : State) (h : Reach5 s) :
    List.Pairwise (fun a b => a.input.is b.input = false) s.restreams ∧
    (∀ src rid newId, another_owns_pull src rid s.restreams →
      State.add_pull_input src rid newId s = (some false, s)) ∧
    (∀ name rid newId, another_owns_push name rid s.restreams →
      State.add_push_input name rid newId s = (some false, s)) := by
  refine ⟨(reach5_inv h).2, ?_, ?_⟩
  · intro src rid newId hown
    rw [State.add_pull_input, if_pos ((pull_scan_iff src rid s.restreams).mpr hown)]
  · intro name rid newId hown
    rw [State.add_push_input, if_pos ((push_scan_iff name rid s.restreams).mpr hown)]

/-- C1 witness: the invariant instantiated at the concrete reachable
state built by adding the pull input `rtmp://a/x` and then the push input
`studio` to the empty state. -/
theorem C1_witness :
    List.Pairwise (fun a b => a.input.is b.input = false)
      ((State.add_push_input "studio" none 1
        (State.add_pull_input "rtmp://a/x" none 0 State.default).2).2).restreams :=
  (C1_input_identity_uniqueness _
    (Reach5.step
      (Reach5.step Reach5.init
        (Step5.add_pull "rtmp://a/x" none 0 State.default (by simp [State.default])))
      (Step5.add_push "studio" none 1 _ (by decide)))).1

/-!
Publisher-id/status invariant (C7).
-/

/-- Every restream with a non-null publisher id has an `Online` input. -/
def pub_online (rs : List Restream) : Prop :=
  ∀ r ∈ rs, r.srs_publisher_id ≠ none → r.input.status = Status.Online

theorem updateFirst_pub_online {β : Type _} {p : Restream → Bool}
    {f : Restream → Option (β × Restream)}
    {rs : List Restream} {b : β} {rs₂ : List Restream}
    (hu : updateFirst p f rs = some (b, rs₂))
    (hf : ∀ x b₂ x₂, f x = some (b₂, x₂) →
      (x₂.srs_publisher_id = x.srs_publisher_id ∧ x₂.input.status = x.input.status) ∨
      x₂.srs_publisher_id = none)
    (h : pub_online rs) : pub_online rs₂ :=
  updateFirst_forall hu
    (fun x _ hx b₂ x₂ hfx => by
      rcases hf x b₂ x₂ hfx with ⟨hp, hs⟩ | hp
      · intro hne
        rw [hs]
        exact hx (hp ▸ hne)
      · intro hne
        exact absurd hp hne)
    h

theorem add_input_to_pub_online (rs : List Restream) (input : Input)
    (rid : Option InputId) (newId : InputId) (h : pub_online rs) :
    pub_online (add_input_to rs input rid newId).2 := by
  cases rid with
  | none =>
    simp only [add_input_to]
    intro r hr
    rcases List.mem_append.mp hr with h₁ | h₁
    · exact h r h₁
    · rcases List.mem_singleton.mp h₁ with rfl
      intro hne
      exact absurd rfl hne
  | some id =>
    simp only [add_input_to]
    cases hu : updateFirst (fun r => r.id == id)
        (fun r =>
          if r.input.is input then some ((), r)
          else some ((), { r with
            input := input,
            srs_publisher_id := none,
            outputs := r.outputs.map (fun o => { o with status := Status.Offline }) }))
        rs with
    | none => exact h
    | some brs =>
      obtain ⟨b₀, rs₀⟩ := brs
      exact updateFirst_pub_online hu
        (fun x b₂ x₂ hfx => by
          split at hfx <;> simp only [Option.some.injEq, Prod.mk.injEq] at hfx
          · cases hfx.2
            exact Or.inl ⟨rfl, rfl⟩
          · cases hfx.2
            exact Or.inr rfl)
        h

theorem add_pull_input_pub_online (src : Url) (rid : Option InputId) (newId : InputId)
    (s : State) (h : pub_online s.restreams) :
    pub_online (State.add_pull_input src rid newId s).2.restreams := by
  unfold State.add_pull_input
  split
  · exact h
  · exact add_input_to_pub_online s.restreams _ rid newId h

theorem add_push_input_pub_online (name : String) (rid : Option InputId) (newId : InputId)
    (s : State) (h : pub_online s.restreams) :
    pub_online (State.add_push_input name rid newId s).2.restreams := by
  unfold State.add_push_input
  split
  · exact h
  · exact add_input_to_pub_online s.restreams _ rid newId h

theorem remove_input_pub_online (id : InputId) (s : State) (h : pub_online s.restreams) :
    pub_online (State.remove_input id s).2.restreams := by
  simp only [State.remove_input]
  intro r hr
  exact h r (List.mem_of_mem_filter hr)

theorem enable_input_pub_online (id : InputId) (s : State) (h : pub_online s.restreams) :
    pub_online (State.enable_input id s).2.restreams := by
  unfold State.enable_input
  cases hu : updateFirst (fun r => r.id == id)
      (fun r =>
        if r.enabled then some (false, r)
        else some (true, { r with enabled := true }))
      s.restreams with
  | none => exact h
  | some brs =>
    obtain ⟨b₀, rs₀⟩ := brs
    exact updateFirst_pub_online hu
      (fun x b₂ x₂ hfx => by
        split at hfx <;> simp only [Option.some.injEq, Prod.mk.injEq] at hfx <;>
          (cases hfx.2; exact Or.inl ⟨rfl, rfl⟩))
      h

theorem disable_input_pub_online (id : InputId) (s : State) (h : pub_online s.restreams) :
    pub_online (State.disable_input id s).2.restreams := by
  unfold State.disable_input
  cases hu : updateFirst (fun r => r.id == id)
      (fun r =>
        if !r.enabled then some (false, r)
        else some (true, { r with enabled := false, srs_publisher_id := none }))
      s.restreams with
  | none => exact h
  | some brs =>
    obtain ⟨b₀, rs₀⟩ := brs
    exact updateFirst_pub_online hu
      (fun x b₂ x₂ hfx => by
        split at hfx <;> simp only [Option.some.injEq, Prod.mk.injEq] at hfx
        · cases hfx.2
          exact Or.inl ⟨rfl, rfl⟩
        · cases hfx.2
          exact Or.inr rfl)
      h

theorem add_new_output_pub_online (input_id : InputId) (dst : Url) (label : Option String)
    (newId : OutputId) (s : State) (h : pub_online s.restreams) :
    pub_online (State.add_new_output input_id dst label newId s).2.restreams := by
  unfold State.add_new_output
  cases hu : updateFirst (fun r => r.id == input_id)
      (fun r =>
        if r.outputs.any (fun o => o.dst == dst) then some (false, r)
        else some (true, { r with outputs := r.outputs ++ [{
          id := newId,
          dst := dst,
          label := label,
          enabled := false,
          status := Status.Offline }] }))
      s.restreams with
  | none => exact h
  | some brs =>
    obtain ⟨b₀, rs₀⟩ := brs
    exact updateFirst_pub_online hu
      (fun x b₂ x₂ hfx => by
        split at hfx <;> simp only [Option.some.injEq, Prod.mk.injEq] at hfx <;>
          (cases hfx.2; exact Or.inl ⟨rfl, rfl⟩))
      h

theorem remove_output_pub_online (input_id : InputId) (output_id : OutputId)
    (s : State) (h : pub_online s.restreams) :
    pub_online (State.remove_output input_id output_id s).2.restreams := by
  unfold State.remove_output
  cases hu : updateFirst (fun r => r.id == input_id)
      (fun r =>
        let os := r.outputs.filter (fun o => o.id != output_id)
        some (os.length != r.outputs.length, { r with outputs := os }))
      s.restreams with
  | none => exact h
  | some brs =>
    obtain ⟨b₀, rs₀⟩ := brs
    exact updateFirst_pub_online hu
      (fun x b₂ x₂ hfx => by
        simp only [Option.some.injEq, Prod.mk.injEq] at hfx
        cases hfx.2
        exact Or.inl ⟨rfl, rfl⟩)
      h

theorem enable_output_pub_online (input_id : InputId) (output_id : OutputId)
    (s : State) (h : pub_online s.restreams) :
    pub_online (State.enable_output input_id output_id s).2.restreams := by
  unfold State.enable_output
  cases hu : updateFirst (fun r => r.id == input_id)
      (fun r =>
        (updateFirst (fun o => o.id == output_id)
          (fun o =>
            if o.enabled then some (false, o)
            else some (true, { o with enabled := true }))
          r.outputs).map (fun bo => (bo.1, { r with outputs := bo.2 })))
      s.restreams with
  | none => exact h
  | some brs =>
    obtain ⟨b₀, rs₀⟩ := brs
    exact updateFirst_pub_online hu
      (fun x b₂ x₂ hfx => by
        cases hin : updateFirst (fun o => o.id == output_id)
            (fun o =>
              if o.enabled then some (false, o)
              else some (true, { o with enabled := true }))
            x.outputs with
        | none => rw [hin] at hfx; exact absurd hfx (by simp)
        | some bo =>
          rw [hin] at hfx
          simp only [Option.map, Option.some.injEq, Prod.mk.injEq] at hfx
          cases hfx.2
          exact Or.inl ⟨rfl, rfl⟩)
      h

theorem disable_output_pub_online (input_id : InputId) (output_id : OutputId)
    (s : State) (h : pub_online s.restreams) :
    pub_online (State.disable_output input_id output_id s).2.restreams := by
  unfold State.disable_output
  cases hu : updateFirst (fun r => r.id == input_id)
      (fun r =>
        (updateFirst (fun o => o.id == output_id)
          (fun o =>
            if !o.enabled then some (false, o)
            else some (true, { o with enabled := false }))
          r.outputs).map (fun bo => (bo.1, { r with outputs := bo.2 })))
      s.restreams with
  | none => exact h
  | some brs =>
    obtain ⟨b₀, rs₀⟩ := brs
    exact updateFirst_pub_online hu
      (fun x b₂ x₂ hfx => by
        cases hin : updateFirst (fun o => o.id == output_id)
            (fun o =>
              if !o.enabled then some (false, o)
              else some (true, { o with enabled := false }))
            x.outputs with
        | none => rw [hin] at hfx; exact absurd hfx (by simp)
        | some bo =>
          rw [hin] at hfx
          simp only [Option.map, Option.some.injEq, Prod.mk.injEq] at hfx
          cases hfx.2
          exact Or.inl ⟨rfl, rfl⟩)
      h

theorem enable_all_outputs_pub_online (input_id : InputId) (s : State)
    (h : pub_online s.restreams) :
    pub_online (State.enable_all_outputs input_id s).2.restreams := by
  unfold State.enable_all_outputs
  cases hu : updateFirst (fun r => r.id == input_id)
      (fun r =>
        some (r.outputs.any (fun o => !o.enabled),
          { r with outputs := r.outputs.map (fun o => { o with enabled := true }) }))
      s.restreams with
  | none => exact h
  | some brs =>
    obtain ⟨b₀, rs₀⟩ := brs
    exact updateFirst_pub_online hu
      (fun x b₂ x₂ hfx => by
        simp only [Option.some.injEq, Prod.mk.injEq] at hfx
        cases hfx.2
        exact Or.inl ⟨rfl, rfl⟩)
      h

theorem disable_all_outputs_pub_online (input_id : InputId) (s : State)
    (h : pub_online s.restreams) :
    pub_online (State.disable_all_outputs input_id s).2.restreams := by
  unfold State.disable_all_outputs
  cases hu : updateFirst (fun r => r.id == input_id)
      (fun r =>
        some (r.outputs.any (fun o => o.enabled),
          { r with outputs := r.outputs.map (fun o => { o with enabled := false }) }))
      s.restreams with
  | none => exact h
  | some brs =>
    obtain ⟨b₀, rs₀⟩ := brs
    exact updateFirst_pub_online hu
      (fun x b₂ x₂ hfx => by
        simp only [Option.some.injEq, Prod.mk.injEq] at hfx
        cases hfx.2
        exact Or.inl ⟨rfl, rfl⟩)
      h

theorem publish_update_pub_online (req : Srs.Request) :
    ∀ {rs rs₂ : List Restream}, publish_update req rs = some (Except.ok rs₂) →
      pub_online rs → pub_online rs₂ := by
  intro rs
  induction rs with
  | nil => intro rs₂ hpu; simp [publish_update] at hpu
  | cons r rest ih =>
    intro rs₂ hpu h
    rw [publish_update] at hpu
    split at hpu
    · split at hpu
      · simp at hpu
      · simp only [Option.some.injEq, Except.ok.injEq] at hpu
        subst hpu
        intro y hy
        rcases List.mem_cons.mp hy with rfl | hmem
        · intro _
          exact Input.status_set_status _ Status.Online
        · exact h y (List.mem_cons_of_mem r hmem)
    · cases hrec : publish_update req rest with
      | none => rw [hrec] at hpu; simp at hpu
      | some e =>
        rw [hrec] at hpu
        cases e with
        | error e₂ => simp [Except.map] at hpu
        | ok l =>
          simp only [Option.map, Except.map, Option.some.injEq, Except.ok.injEq] at hpu
          subst hpu
          intro y hy
          rcases List.mem_cons.mp hy with rfl | hmem
          · exact h y (List.mem_cons_self y rest)
          · exact ih hrec (fun z hz => h z (List.mem_cons_of_mem r hz)) y hmem

theorem callback_pub_online (req : Srs.Request) (s : State) (h : pub_online s.restreams) :
    pub_online (callback req s).2.restreams := by
  simp only [callback]
  cases hact : req.action <;> simp only [hact]
  · unfold on_connect
    split <;> exact h
  · unfold on_publish
    split
    · exact h
    · cases hpu : publish_update req s.restreams with
      | none => exact h
      | some e =>
        cases e with
        | error e₂ => exact h
        | ok l => exact publish_update_pub_online req hpu h
  · unfold on_unpublish
    cases hu : updateFirst (fun r => r.input.uses_srs_app req.app)
        (fun r => some ((), { r with
          srs_publisher_id := none,
          input := r.input.set_status Status.Offline }))
        s.restreams with
    | none => exact h
    | some brs =>
      obtain ⟨b₀, rs₀⟩ := brs
      exact updateFirst_pub_online hu
        (fun x b₂ x₂ hfx => by
          simp only [Option.some.injEq, Prod.mk.injEq] at hfx
          cases hfx.2
          exact Or.inr rfl)
        h

/-- One mutation step of the full history of claim C7: any store mutator
with arbitrary arguments, or any callback request handled by the
`callback` endpoint.  Fresh ids delivered by the UUID generator are
modelled by the freshness hypotheses on the adds. -/
inductive StepAll : State → State → Prop where
  | add_pull (src : Url) (rid : Option InputId) (newId : InputId) (s : State)
      (h : newId ∉ s.restreams.map Restream.id) :
      StepAll s (State.add_pull_input src rid newId s).2
  | add_push (name : String) (rid : Option InputId) (newId : InputId) (s : State)
      (h : newId ∉ s.restreams.map Restream.id) :
      StepAll s (State.add_push_input name rid newId s).2
  | remove_input (id : InputId) (s : State) : StepAll s (State.remove_input id s).2
  | enable_input (id : InputId) (s : State) : StepAll s (State.enable_input id s).2
  | disable_input (id : InputId) (s : State) : StepAll s (State.disable_input id s).2
  | add_new_output (input_id : InputId) (dst : Url) (label : Option String)
      (newId : OutputId) (s : State)
      (h : ∀ r ∈ s.restreams, newId ∉ r.outputs.map Output.id) :
      StepAll s (State.add_new_output input_id dst label newId s).2
  | remove_output (input_id : InputId) (output_id : OutputId) (s : State) :
      StepAll s (State.remove_output input_id output_id s).2
  | enable_output (input_id : InputId) (output_id : OutputId) (s : State) :
      StepAll s (State.enable_output input_id output_id s).2
  | disable_output (input_id : InputId) (output_id : OutputId) (s : State) :
      StepAll s (State.disable_output input_id output_id s).2
  | enable_all_outputs (input_id : InputId) (s : State) :
      StepAll s (State.enable_all_outputs input_id s).2
  | disable_all_outputs (input_id : InputId) (s : State) :
      StepAll s (State.disable_all_outputs input_id s).2
  | cb (req : Srs.Request) (s : State) : StepAll s (callback req s).2

/-- States reachable from the empty default state by any sequence of
store mutators and callback handlers. -/
inductive ReachAll : State → Prop where
  | init : ReachAll State.default
  | step {s s₂ : State} : ReachAll s → StepAll s s₂ → ReachAll s₂

theorem stepAll_pub_online {s s₂ : State} (hst : StepAll s s₂)
    (h : pub_online s.restreams) : pub_online s₂.restreams := by
  cases hst with
  | add_pull src rid newId _ _ => exact add_pull_input_pub_online src rid newId s h
  | add_push name rid newId _ _ => exact add_push_input_pub_online name rid newId s h
  | remove_input id => exact remove_input_pub_online id s h
  | enable_input id => exact enable_input_pub_online id s h
  | disable_input id => exact disable_input_pub_online id s h
  | add_new_output input_id dst label newId _ _ =>
      exact add_new_output_pub_online input_id dst label newId s h
  | remove_output input_id output_id => exact remove_output_pub_online input_id output_id s h
  | enable_output input_id output_id => exact enable_output_pub_online input_id output_id s h
  | disable_output input_id output_id => exact disable_output_pub_online input_id output_id s h
  | enable_all_outputs input_id => exact enable_all_outputs_pub_online input_id s h
  | disable_all_outputs input_id => exact disable_all_outputs_pub_online input_id s h
  | cb req => exact callback_pub_online req s h

/-- C7: in every state reachable from the empty state by any sequence of
store mutators and callback handlers, every restream whose
`srs_publisher_id` is non-null has input status `Online`. -/
theorem C7_publisher_implies_online (s : State) (h : ReachAll s) :
    pub_online s.restreams := by
  induction h with
  | init =>
    intro r hr
    exact absurd hr (by simp [State.default])
  | step _ hst ih => exact stepAll_pub_online hst ih

/-- C7 witness: the invariant instantiated at the concrete reachable
state built by adding the push input `studio` and then handling a
successful `on_publish` callback for it (which sets a non-null publisher
id together with an `Online` status). -/
theorem C7_witness :
    pub_online ((callback
      { action := Srs.Action.OnPublish,
        app := "studio",
        stream := some "in",
        client_id := 42,
        ip := IpAddr.v4 1 2 3 4 }
      (State.add_push_input "studio" none 0 State.default).2).2).restreams :=
  C7_publisher_implies_online _
    (ReachAll.step
      (ReachAll.step ReachAll.init
        (StepAll.add_push "studio" none 0 State.default (by simp [State.default])))
      (StepAll.cb
        { action := Srs.Action.OnPublish,
          app := "studio",
          stream := some "in",
          client_id := 42,
          ip := IpAddr.v4 1 2 3 4 } _))

/-!
Frame property of the mutators (C10).
-/

/-- Frame condition on a list of ids: the ids present before and not
removed keep their relative order, and genuinely new ids only appear
appended at the end. -/
def id_frame (before after : List Nat) : Prop :=
  after = before.filter (fun i => decide (i ∈ after)) ++
    after.filter (fun i => decide (i ∉ before))

/-- Frame condition on a whole state transition: `password_hash` is
untouched, the restream id list satisfies the id frame condition, and for
every surviving restream (matched by id) its output id list satisfies the
id frame condition as well. -/
def frame_ok (s s₂ : State) : Prop :=
  s₂.password_hash = s.password_hash ∧
  id_frame (s.restreams.map Restream.id) (s₂.restreams.map Restream.id) ∧
  ∀ r₂ ∈ s₂.restreams, ∀ r ∈ s.restreams, r.id = r₂.id →
    id_frame (r.outputs.map Output.id) (r₂.outputs.map Output.id)

theorem id_frame_refl (l : List Nat) : id_frame l l := by
  unfold id_frame
  rw [List.filter_eq_self.mpr (fun a ha => by simpa using ha),
    List.filter_eq_nil_iff.mpr (fun a ha => by simpa using ha),
    List.append_nil]

theorem id_frame_filter (l : List Nat) (q : Nat → Bool) : id_frame l (l.filter q) := by
  unfold id_frame
  have h₁ : l.filter (fun i => decide (i ∈ l.filter q)) = l.filter q :=
    List.filter_congr (fun a ha => by
      cases hq : q a <;> simp [List.mem_filter, ha, hq])
  have h₂ : (l.filter q).filter (fun i => decide (i ∉ l)) = [] :=
    List.filter_eq_nil_iff.mpr (fun a ha => by
      simp [List.mem_of_mem_filter ha])
  rw [h₁, h₂, List.append_nil]

theorem id_frame_append (l : List Nat) (n : Nat) (h : n ∉ l) : id_frame l (l ++ [n]) := by
  unfold id_frame
  have h₁ : l.filter (fun i => decide (i ∈ l ++ [n])) = l :=
    List.filter_eq_self.mpr (fun a ha => by simp [List.mem_append, ha])
  have h₂ : (l ++ [n]).filter (fun i => decide (i ∉ l)) = [n] := by
    rw [List.filter_append,
      List.filter_eq_nil_iff.mpr (fun a ha => by simp [ha])]
    simp [h]
  rw [h₁, h₂]

theorem frame_ok_refl (s : State) (hnd : (s.restreams.map Restream.id).Nodup) :
    frame_ok s s := by
  refine ⟨rfl, id_frame_refl _, ?_⟩
  intro r₂ h₂ r h₁ hid
  have hr : r = r₂ := List.inj_on_of_nodup_map hnd h₁ h₂ hid
  rw [hr]
  exact id_frame_refl _

theorem map_filter_comm {α β : Type _} (f : α → β) (q : α → Bool) (qb : β → Bool)
    (hq : ∀ a, q a = qb (f a)) (l : List α) :
    (l.filter q).map f = (l.map f).filter qb := by
  induction l with
  | nil => rfl
  | cons a as ih =>
    simp only [List.filter, List.map, hq]
    cases qb (f a) <;> simp [ih]

theorem updateFirst_frame {β : Type _} {p : Restream → Bool}
    {f : Restream → Option (β × Restream)}
    {rs : List Restream} {b : β} {rs₂ : List Restream}
    (hu : updateFirst p f rs = some (b, rs₂))
    (hnd : (rs.map Restream.id).Nodup)
    (hf : ∀ x ∈ rs, ∀ b₂ x₂, f x = some (b₂, x₂) →
      x₂.id = x.id ∧ id_frame (x.outputs.map Output.id) (x₂.outputs.map Output.id)) :
    rs₂.map Restream.id = rs.map Restream.id ∧
    (∀ r₂ ∈ rs₂, ∀ r ∈ rs, r.id = r₂.id →
      id_frame (r.outputs.map Output.id) (r₂.outputs.map Output.id)) := by
  obtain ⟨pre, x, post, x₂, rfl, rfl, hpre, hpx, hfx⟩ := updateFirst_some hu
  have hx₂ := hf x (by simp) b x₂ hfx
  constructor
  · simp [hx₂.1]
  · intro r₂ h₂ r h₁ hid
    rcases List.mem_append.mp h₂ with hh | hh
    · have hr₂rs : r₂ ∈ pre ++ x :: post := List.mem_append.mpr (Or.inl hh)
      have hr : r = r₂ := List.inj_on_of_nodup_map hnd h₁ hr₂rs hid
      rw [hr]
      exact id_frame_refl _
    · rcases List.mem_cons.mp hh with rfl | hh₂
      · have hx_mem : x ∈ pre ++ x :: post := by simp
        have hrx : r = x :=
          List.inj_on_of_nodup_map hnd h₁ hx_mem (by rw [hid, hx₂.1])
        rw [hrx]
        exact hx₂.2
      · have hr₂rs : r₂ ∈ pre ++ x :: post :=
          List.mem_append.mpr (Or.inr (List.mem_cons_of_mem x hh₂))
        have hr : r = r₂ := List.inj_on_of_nodup_map hnd h₁ hr₂rs hid
        rw [hr]
        exact id_frame_refl _

theorem frame_ok_of_updateFirst {β : Type _} {p : Restream → Bool}
    {f : Restream → Option (β × Restream)} {s : State}
    {b : β} {l₂ : List Restream}
    (hnd : (s.restreams.map Restream.id).Nodup)
    (hu : updateFirst p f s.restreams = some (b, l₂))
    (hf : ∀ x ∈ s.restreams, ∀ b₂ x₂, f x = some (b₂, x₂) →
      x₂.id = x.id ∧ id_frame (x.outputs.map Output.id) (x₂.outputs.map Output.id)) :
    frame_ok s { s with restreams := l₂ } := by
  have h := updateFirst_frame hu hnd hf
  exact ⟨rfl, by rw [h.1]; exact id_frame_refl _, h.2⟩

theorem add_input_to_replace_frame (s : State) (input : Input) (id newId : InputId)
    (hnd : (s.restreams.map Restream.id).Nodup) :
    frame_ok s { s with restreams := (add_input_to s.restreams input (some id) newId).2 } := by
  simp only [add_input_to]
  cases hu : updateFirst (fun r => r.id == id)
      (fun r =>
        if r.input.is input then some ((), r)
        else some ((), { r with
          input := input,
          srs_publisher_id := none,
          outputs := r.outputs.map (fun o => { o with status := Status.Offline }) }))
      s.restreams with
  | none => exact frame_ok_refl s hnd
  | some brs =>
    obtain ⟨b₀, rs₀⟩ := brs
    show frame_ok s { s with restreams := rs₀ }
    refine frame_ok_of_updateFirst hnd hu ?_
    intro x _ b₂ x₂ hfx
    split at hfx <;> simp only [Option.some.injEq, Prod.mk.injEq] at hfx <;> cases hfx.2
    · exact ⟨rfl, id_frame_refl _⟩
    · refine ⟨rfl, ?_⟩
      have hmm : (x.outputs.map (fun o => { o with status := Status.Offline })).map Output.id =
          x.outputs.map Output.id := by
        rw [List.map_map]
        exact List.map_congr_left (fun o _ => rfl)
      rw [hmm]
      exact id_frame_refl _

theorem add_input_to_append_frame (s : State) (input : Input) (newId : InputId)
    (hnd : (s.restreams.map Restream.id).Nodup)
    (hfresh : newId ∉ s.restreams.map Restream.id) :
    frame_ok s { s with restreams := (add_input_to s.restreams input none newId).2 } := by
  simp only [add_input_to]
  refine ⟨rfl, ?_, ?_⟩
  · simp only [List.map_append, List.map_cons, List.map_nil]
    exact id_frame_append _ newId hfresh
  · intro r₂ h₂ r h₁ hid
    rcases List.mem_append.mp h₂ with hh | hh
    · have hr : r = r₂ := List.inj_on_of_nodup_map hnd h₁ hh hid
      rw [hr]
      exact id_frame_refl _
    · rcases List.mem_singleton.mp hh with rfl
      have hrid : r.id = newId := hid
      exact absurd (hrid ▸ List.mem_map_of_mem Restream.id h₁) hfresh

/-- C10: frame property of the restreams mutators.  Every mutator leaves
`password_hash` unchanged, preserves the ids and relative order of the
restreams it does not remove and of the outputs it does not remove, and
appends newly created restreams and outputs only at the end of their
list (given the freshness of generated ids and distinctness of the
existing ones). -/
theorem C10_mutator_frame (s : State) (hnd : (s.restreams.map Restream.id).Nodup) :
    (∀ src rid newId, newId ∉ s.restreams.map Restream.id →
      frame_ok s (State.add_pull_input src rid newId s).2) ∧
    (∀ name rid newId, newId ∉ s.restreams.map Restream.id →
      frame_ok s (State.add_push_input name rid newId s).2) ∧
    (∀ id, frame_ok s (State.remove_input id s).2) ∧
    (∀ id, frame_ok s (State.enable_input id s).2) ∧
    (∀ id, frame_ok s (State.disable_input id s).2) ∧
    (∀ input_id dst label newId,
      (∀ r ∈ s.restreams, newId ∉ r.outputs.map Output.id) →
      frame_ok s (State.add_new_output input_id dst label newId s).2) ∧
    (∀ input_id output_id, frame_ok s (State.remove_output input_id output_id s).2) ∧
    (∀ input_id output_id, frame_ok s (State.enable_output input_id output_id s).2) ∧
    (∀ input_id output_id, frame_ok s (State.disable_output input_id output_id s).2) ∧
    (∀ input_id, frame_ok s (State.enable_all_outputs input_id s).2) ∧
    (∀ input_id, frame_ok s (State.disable_all_outputs input_id s).2) := by
  refine ⟨?_, ?_, ?_, ?_, ?_, ?_, ?_, ?_, ?_, ?_, ?_⟩
  · intro src rid newId hfresh
    unfold State.add_pull_input
    split
    · exact frame_ok_refl s hnd
    · cases rid with
      | none => exact add_input_to_append_frame s _ newId hnd hfresh
      | some id => exact add_input_to_replace_frame s _ id newId hnd
  · intro name rid newId hfresh
    unfold State.add_push_input
    split
    · exact frame_ok_refl s hnd
    · cases rid with
      | none => exact add_input_to_append_frame s _ newId hnd hfresh
      | some id => exact add_input_to_replace_frame s _ id newId hnd
  · intro id
    simp only [State.remove_input]
    refine ⟨rfl, ?_, ?_⟩
    · rw [map_filter_comm Restream.id (fun r => r.id != id) (fun i => i != id)
        (fun a => rfl)]
      exact id_frame_filter _ _
    · intro r₂ h₂ r h₁ hid
      have hr : r = r₂ := List.inj_on_of_nodup_map hnd h₁ (List.mem_of_mem_filter h₂) hid
      rw [hr]
      exact id_frame_refl _
  · intro id
    unfold State.enable_input
    cases hu : updateFirst (fun r => r.id == id)
        (fun r =>
          if r.enabled then some (false, r)
          else some (true, { r with enabled := true }))
        s.restreams with
    | none => exact frame_ok_refl s hnd
    | some brs =>
      obtain ⟨b₀, rs₀⟩ := brs
      show frame_ok s { s with restreams := rs₀ }
      refine frame_ok_of_updateFirst hnd hu ?_
      intro x _ b₂ x₂ hfx
      split at hfx <;> simp only [Option.some.injEq, Prod.mk.injEq] at hfx <;> cases hfx.2 <;>
        exact ⟨rfl, id_frame_refl _⟩
  · intro id
    unfold State.disable_input
    cases hu : updateFirst (fun r => r.id == id)
        (fun r =>
          if !r.enabled then some (false, r)
          else some (true, { r with enabled := false, srs_publisher_id := none }))
        s.restreams with
    | none => exact frame_ok_refl s hnd
    | some brs =>
      obtain ⟨b₀, rs₀⟩ := brs
      show frame_ok s { s with restreams := rs₀ }
      refine frame_ok_of_updateFirst hnd hu ?_
      intro x _ b₂ x₂ hfx
      split at hfx <;> simp only [Option.some.injEq, Prod.mk.injEq] at hfx <;> cases hfx.2 <;>
        exact ⟨rfl, id_frame_refl _⟩
  · intro input_id dst label newId hfresh
    unfold State.add_new_output
    cases hu : updateFirst (fun r => r.id == input_id)
        (fun r =>
          if r.outputs.any (fun o => o.dst == dst) then some (false, r)
          else some (true, { r with outputs := r.outputs ++ [{
            id := newId,
            dst := dst,
            label := label,
            enabled := false,
            status := Status.Offline }] }))
        s.restreams with
    | none => exact frame_ok_refl s hnd
    | some brs =>
      obtain ⟨b₀, rs₀⟩ := brs
      show frame_ok s { s with restreams := rs₀ }
      refine frame_ok_of_updateFirst hnd hu ?_
      intro x hx b₂ x₂ hfx
      split at hfx <;> simp only [Option.some.injEq, Prod.mk.injEq] at hfx <;> cases hfx.2
      · exact ⟨rfl, id_frame_refl _⟩
      · refine ⟨rfl, ?_⟩
        simp only [List.map_append, List.map_cons, List.map_nil]
        exact id_frame_append _ newId (hfresh x hx)
  · intro input_id output_id
    unfold State.remove_output
    cases hu : updateFirst (fun r => r.id == input_id)
        (fun r =>
          let os := r.outputs.filter (fun o => o.id != output_id)
          some (os.length != r.outputs.length, { r with outputs := os }))
        s.restreams with
    | none => exact frame_ok_refl s hnd
    | some brs =>
      obtain ⟨b₀, rs₀⟩ := brs
      show frame_ok s { s with restreams := rs₀ }
      refine frame_ok_of_updateFirst hnd hu ?_
      intro x _ b₂ x₂ hfx
      simp only [Option.some.injEq, Prod.mk.injEq] at hfx
      cases hfx.2
      refine ⟨rfl, ?_⟩
      rw [map_filter_comm Output.id (fun o => o.id != output_id) (fun i => i != output_id)
        (fun a => rfl)]
      exact id_frame_filter _ _
  · intro input_id output_id
    unfold State.enable_output
    cases hu : updateFirst (fun r => r.id == input_id)
        (fun r =>
          (updateFirst (fun o => o.id == output_id)
            (fun o =>
              if o.enabled then some (false, o)
              else some (true, { o with enabled := true }))
            r.outputs).map (fun bo => (bo.1, { r with outputs := bo.2 })))
        s.restreams with
    | none => exact frame_ok_refl s hnd
    | some brs =>
      obtain ⟨b₀, rs₀⟩ := brs
      show frame_ok s { s with restreams := rs₀ }
      refine frame_ok_of_updateFirst hnd hu ?_
      intro x _ b₂ x₂ hfx
      cases hin : updateFirst (fun o => o.id == output_id)
          (fun o =>
            if o.enabled then some (false, o)
            else some (true, { o with enabled := true }))
          x.outputs with
      | none => rw [hin] at hfx; exact absurd hfx (by simp)
      | some bo =>
        obtain ⟨b₁, os₁⟩ := bo
        rw [hin] at hfx
        simp only [Option.map, Option.some.injEq, Prod.mk.injEq] at hfx
        cases hfx.2
        refine ⟨rfl, ?_⟩
        have hmap : os₁.map Output.id = x.outputs.map Output.id :=
          updateFirst_map hin (fun o _ b₃ o₂ hfo => by
            split at hfo <;> simp only [Option.some.injEq, Prod.mk.injEq] at hfo <;>
              (cases hfo.2; rfl))
        rw [hmap]
        exact id_frame_refl _
  · intro input_id output_id
    unfold State.disable_output
    cases hu : updateFirst (fun r => r.id == input_id)
        (fun r =>
          (updateFirst (fun o => o.id == output_id)
            (fun o =>
              if !o.enabled then some (false, o)
              else some (true, { o with enabled := false }))
            r.outputs).map (fun bo => (bo.1, { r with outputs := bo.2 })))
        s.restreams with
    | none => exact frame_ok_refl s hnd
    | some brs =>
      obtain ⟨b₀, rs₀⟩ := brs
      show frame_ok s { s with restreams := rs₀ }
      refine frame_ok_of_updateFirst hnd hu ?_
      intro x _ b₂ x₂ hfx
      cases hin : updateFirst (fun o => o.id == output_id)
          (fun o =>
            if !o.enabled then some (false, o)
            else some (true, { o with enabled := false }))
          x.outputs with
      | none => rw [hin] at hfx; exact absurd hfx (by simp)
      | some bo =>
        obtain ⟨b₁, os₁⟩ := bo
        rw [hin] at hfx
        simp only [Option.map, Option.some.injEq, Prod.mk.injEq] at hfx
        cases hfx.2
        refine ⟨rfl, ?_⟩
        have hmap : os₁.map Output.id = x.outputs.map Output.id :=
          updateFirst_map hin (fun o _ b₃ o₂ hfo => by
            split at hfo <;> simp only [Option.some.injEq, Prod.mk.injEq] at hfo <;>
              (cases hfo.2; rfl))
        rw [hmap]
        exact id_frame_refl _
  · intro input_id
    unfold State.enable_all_outputs
    cases hu : updateFirst (fun r => r.id == input_id)
        (fun r =>
          some (r.outputs.any (fun o => !o.enabled),
            { r with outputs := r.outputs.map (fun o => { o with enabled := true }) }))
        s.restreams with
    | none => exact frame_ok_refl s hnd
    | some brs =>
      obtain ⟨b₀, rs₀⟩ := brs
      show frame_ok s { s with restreams := rs₀ }
      refine frame_ok_of_updateFirst hnd hu ?_
      intro x _ b₂ x₂ hfx
      simp only [Option.some.injEq, Prod.mk.injEq] at hfx
      cases hfx.2
      refine ⟨rfl, ?_⟩
      have hmm : (x.outputs.map (fun o => { o with enabled := true })).map Output.id =
          x.outputs.map Output.id := by
        rw [List.map_map]
        exact List.map_congr_left (fun o _ => rfl)
      rw [hmm]
      exact id_frame_refl _
  · intro input_id
    unfold State.disable_all_outputs
    cases hu : updateFirst (fun r => r.id == input_id)
        (fun r =>
          some (r.outputs.any (fun o => o.enabled),
            { r with outputs := r.outputs.map (fun o => { o with enabled := false }) }))
        s.restreams with
    | none => exact frame_ok_refl s hnd
    | some brs =>
      obtain ⟨b₀, rs₀⟩ := brs
      show frame_ok s { s with restreams := rs₀ }
      refine frame_ok_of_updateFirst hnd hu ?_
      intro x _ b₂ x₂ hfx
      simp only [Option.some.injEq, Prod.mk.injEq] at hfx
      cases hfx.2
      refine ⟨rfl, ?_⟩
      have hmm : (x.outputs.map (fun o => { o with enabled := false })).map Output.id =
          x.outputs.map Output.id := by
        rw [List.map_map]
        exact List.map_congr_left (fun o _ => rfl)
      rw [hmm]
      exact id_frame_refl _

/-- Concrete state used by the C10 witness. -/
def c10_state : State :=
  { password_hash := some "hash",
    restreams := [{
      id := 1,
      input := Input.Push { name := "studio", status := Status.Offline },
      outputs := [{
        id := 4,
        dst := "rtmp://cdn/b",
        label := none,
        enabled := true,
        status := Status.Offline }],
      enabled := true,
      srs_publisher_id := none }] }

/-- C10 witness: the frame condition instantiated for a fresh pull-input
creation on a concrete one-restream state. -/
theorem C10_witness :
    frame_ok c10_state (State.add_pull_input "rtmp://a/x" none 7 c10_state).2 :=
  (C10_mutator_frame c10_state (by decide)).1 "rtmp://a/x" none 7 (by decide)
